import Mathlib

/-!
mrs_lib: the subscription handle of `include/impl/subscribe_handler.hpp` and the
constructors of `NotchFilter` (`src/notch_filter/notch_filter.cpp`).

A shallow embedding of `SubscribeHandler_impl<MessageType>`: the member variables
become the fields of `State`, every method becomes a function on `State`, and the
configuration that never changes after construction is the structure `Config`.

* `ros::Time::now()` and the publisher count are inputs of the environment, so the
  methods that read them take them as arguments.
* A method that can end the process (a failed `assert`, a dereferenced null
  pointer) returns `Option`; `none` is that abnormal end.
* What a method emits (diagnostics, calls of the timer, calls of user callbacks)
  is returned as a list of `Event`s next to the successor state.
* A user callback is known by what it does to what it is handed: the message
  callback by the wrapper it leaves behind, the timeout callback by its call. Calls
  a callback makes back into the handle are further operations of the handle.
* Time does not pass within an operation: a timer started by an operation run at
  `now` has its deadline one period after `now`, and an expiry is handled at its
  deadline.
* `SubscribeHandler_threadsafe` is the base class plus the recursive mutex `m_mtx`;
  its overrides are the base-class methods under a lock guard.
-/

namespace mrs_lib

/-! ## Collaborators: time, messages, timer, subscriber -/

/-- An instant of `ros::Time`, as nanoseconds since the epoch. The comparison
operators of `ros::Time` are the order of this count. -/
abbrev Time := Nat

/-- A span of `ros::Duration`, in nanoseconds. -/
abbrev Duration := Nat

/-- Modelled from the spec: the sentinel `mrs_lib::no_timeout` of
`mrs_lib/subscribe_handler.h`, which is not among the sources; the spec calls it
the "0/disabled sentinel" of the silence-timeout duration. -/
def no_timeout : Duration := 0

/-- A message of `MessageType`: its `header.stamp` and the rest of its content. -/
structure Msg where
  stamp : Time
  data : Nat
deriving DecidableEq, Repr

/-- The pointer `MessageType::ConstPtr`; `none` is the null pointer. -/
abbrev MsgPtr := Option Msg

/-- Modelled from the spec: the class `MessageWrapper` of
`mrs_lib/subscribe_handler.h`, which is not among the sources. It is built per
delivery around the accepted message and the channel name, and records whether the
user callback marked the message consumed. -/
structure MessageWrapper where
  m_msg_ptr : MsgPtr
  m_topic_name : String
  m_msg_used : Bool
deriving DecidableEq, Repr

namespace MessageWrapper

/-- The constructor `MessageWrapper(msg, topic_name)`: nothing is consumed yet. -/
def create (msg : MsgPtr) (topic_name : String) : MessageWrapper :=
  { m_msg_ptr := msg, m_topic_name := topic_name, m_msg_used := false }

/-- The explicit "mark consumed" operation the callback may invoke. -/
def markConsumed (w : MessageWrapper) : MessageWrapper :=
  { w with m_msg_used := true }

/-- The query `wrp.usedMsg()` read by `data_callback_unchecked`. -/
def usedMsg (w : MessageWrapper) : Bool := w.m_msg_used

end MessageWrapper

/-- Modelled from the spec: the one-shot restartable timer of the transport
(`ros::Timer`). `valid` is false for a default-constructed handle, on which
`start` and `stop` do nothing; `next_expected` is the deadline of the pending
expiry. -/
structure Timer where
  valid : Bool
  period : Duration
  started : Bool
  next_expected : Option Time
deriving DecidableEq, Repr

namespace Timer

/-- A default-constructed `ros::Timer`. -/
def empty : Timer :=
  { valid := false, period := 0, started := false, next_expected := none }

/-- The call `createTimer(period, callback, obj, oneshot = true, autostart = false)`. -/
def createTimer (period : Duration) : Timer :=
  { valid := true, period := period, started := false, next_expected := none }

/-- The call `timer.start()` at time `now`: arms a stopped timer, with the deadline
one period ahead; does nothing on an empty handle or a started timer. -/
def start (t : Timer) (now : Time) : Timer :=
  if t.valid && !t.started then
    { t with started := true, next_expected := some (now + t.period) }
  else t

/-- The call `timer.stop()`: disarms a started timer. -/
def stop (t : Timer) : Timer :=
  if t.valid && t.started then
    { t with started := false, next_expected := none }
  else t

end Timer

/-- Modelled from the spec: the subscription token of the transport
(`ros::Subscriber`). `topic` is what `getTopic()` returns (empty for a
default-constructed handle), `active` whether the registration is live. -/
structure Subscriber where
  topic : String
  active : Bool
deriving DecidableEq, Repr

namespace Subscriber

/-- A default-constructed `ros::Subscriber`. -/
def empty : Subscriber := { topic := "", active := false }

/-- The query `m_sub.getTopic()`. -/
def getTopic (sub : Subscriber) : String := sub.topic

/-- The call `m_sub.shutdown()`. -/
def shutdown (sub : Subscriber) : Subscriber := { sub with active := false }

end Subscriber

/-- The part of the transport (`ros::NodeHandle m_nh`) the handle acts on: how many
registrations of this handle's `data_callback` are live. -/
structure NodeHandle where
  n_callbacks : Nat
deriving DecidableEq, Repr

/-! ## Configuration, state, events -/

/-- What is fixed at construction: the fields of `SubscribeHandlerOptions`, the
message callback, the policy chosen by `set_data_callback<time_consistent>()`, the
name resolution of the node handle, and whether the build defines `NDEBUG`. -/
structure Config where
  no_message_timeout : Duration
  topic_name : String
  node_name : String
  queue_size : Nat
  timeout_callback : Bool
  message_callback : Option (MessageWrapper → MessageWrapper)
  time_consistent : Bool
  resolveName : String → String
  ndebug : Bool

/-- The member variables of `SubscribeHandler_impl` that change over its life.
`m_ok` is not set by the constructor (`none`). -/
structure State where
  m_nh : NodeHandle
  m_sub : Subscriber
  m_ok : Option Bool
  m_got_data : Bool
  m_new_data : Bool
  m_used_data : Bool
  m_last_msg_received : Time
  m_timeout_check_timer : Timer
  m_latest_message : MsgPtr
deriving DecidableEq, Repr

/-- What a method emits besides changing the state. -/
inductive Event where
  | ros_info_subscribed (topic resolved : String)
  | ros_error_no_data (resolved : String)
  | ros_warn_time_reset (last now : Time)
  | ros_warn_older (resolved : String)
  | timer_stop
  | timer_start
  | message_callback (wrp : MessageWrapper)
  | timeout_callback (topic : String) (last_msg : Time) (n_pubs : Nat)
  | default_timeout_callback (topic : String) (last_msg : Time) (n_pubs : Nat)
deriving DecidableEq, Repr

/-- The outcome of a method that returns: its return value, the successor state
and what it emitted, in order. -/
structure Out (α : Type) where
  ret : α
  state : State
  log : List Event

/-! ## The methods of `SubscribeHandler_impl` -/

/-- The method `resolved_topic_name()`. -/
def resolved_topic_name (cfg : Config) (s : State) : String :=
  let ret := s.m_sub.getTopic
  if ret.isEmpty then cfg.resolveName cfg.topic_name else ret

/-- The constructor, run at time `now`. -/
def construct (cfg : Config) (now : Time) : Out Unit :=
  let s : State :=
    { m_nh := { n_callbacks := 0 }
      m_sub := Subscriber.empty
      m_ok := none
      m_got_data := false
      m_new_data := false
      m_used_data := false
      m_last_msg_received := now
      m_timeout_check_timer :=
        if cfg.no_message_timeout != no_timeout then Timer.createTimer cfg.no_message_timeout
        else Timer.empty
      m_latest_message := none }
  { ret := (), state := s
    log := [Event.ros_info_subscribed cfg.topic_name (resolved_topic_name cfg s)] }

/-- The method `peekMsg()`. With assertions compiled in, `assert(m_got_data)` ends
the process when no data was received; with `NDEBUG` the error is logged and the
stored pointer returned. -/
def peekMsg (cfg : Config) (s : State) : Option (Out MsgPtr) :=
  if !cfg.ndebug && !s.m_got_data then none
  else
    some { ret := s.m_latest_message, state := s
           log := if !s.m_got_data then [Event.ros_error_no_data (resolved_topic_name cfg s)]
                  else [] }

/-- The method `getMsg()`. -/
def getMsg (cfg : Config) (s : State) : Option (Out MsgPtr) :=
  peekMsg cfg { s with m_new_data := false, m_used_data := true }

/-- The method `hasMsg()`. -/
def hasMsg (s : State) : Bool := s.m_got_data

/-- The method `newMsg()`. -/
def newMsg (s : State) : Bool := s.m_new_data

/-- The method `usedMsg()`. -/
def usedMsg (s : State) : Bool := s.m_used_data

/-- The method `lastMsgTime()`. Its guard on `m_last_msg_received_mtx` is taken and
released within the call. -/
def lastMsgTime (s : State) : Time := s.m_last_msg_received

/-- The method `topicName()`. -/
def topicName (cfg : Config) : String := cfg.topic_name

/-- The method `check_time_reset(now)`. -/
def check_time_reset (now : Time) (s : State) : Bool :=
  decide (now < s.m_last_msg_received)

/-- The method `check_time_consistent<true>(msg)`. It dereferences
`m_latest_message`; on the null pointer the process ends (`none`). -/
def check_time_consistent (msg : Msg) (s : State) : Option Bool :=
  match s.m_latest_message with
  | none => none
  | some latest => some (decide (msg.stamp ≥ latest.stamp))

/-- The method `process_new_message(msg, time)`. -/
def process_new_message (msg : Msg) (time : Time) (s : State) : State :=
  { s with
    m_latest_message := some msg
    m_new_data := true
    m_got_data := true
    m_last_msg_received := time
    m_timeout_check_timer := (s.m_timeout_check_timer.stop).start time }

/-- The method `data_callback_unchecked(msg, time)`. -/
def data_callback_unchecked (cfg : Config) (msg : Msg) (time : Time) (s : State) : Out Unit :=
  let s1 := process_new_message msg time s
  match cfg.message_callback with
  | none => { ret := (), state := s1, log := [Event.timer_stop, Event.timer_start] }
  | some cb =>
    let wrp := MessageWrapper.create (some msg) cfg.topic_name
    let wrp1 := cb wrp
    { ret := ()
      state := if wrp1.usedMsg then { s1 with m_new_data := false } else s1
      log := [Event.timer_stop, Event.timer_start, Event.message_callback wrp] }

/-- The method `data_callback_impl<false>(msg)`, run at time `now`. -/
def data_callback_impl_false (cfg : Config) (msg : Msg) (now : Time) (s : State) : Out Unit :=
  data_callback_unchecked cfg msg now s

/-- The value of `!m_got_data || check_time_consistent<true>(msg)`: the right
operand is only evaluated when data was received. -/
def message_valid (msg : Msg) (s : State) : Option Bool :=
  if !s.m_got_data then some true else check_time_consistent msg s

/-- The method `data_callback_impl<true>(msg)`, run at time `now`. -/
def data_callback_impl_true (cfg : Config) (msg : Msg) (now : Time) (s : State) :
    Option (Out Unit) :=
  let time_reset := check_time_reset now s
  match message_valid msg s with
  | none => none
  | some valid =>
    if valid || time_reset then
      let o := data_callback_unchecked cfg msg now s
      some { o with
             log := (if time_reset then [Event.ros_warn_time_reset s.m_last_msg_received now]
                     else []) ++ o.log }
    else
      some { ret := (), state := s, log := [Event.ros_warn_older (resolved_topic_name cfg s)] }

/-- The method `data_callback(msg)`: dispatches to the policy bound by
`set_data_callback<time_consistent>()`. -/
def data_callback (cfg : Config) (msg : Msg) (now : Time) (s : State) : Option (Out Unit) :=
  if cfg.time_consistent then data_callback_impl_true cfg msg now s
  else some (data_callback_impl_false cfg msg now s)

/-- The method `start()`, run at time `now`. The assignment to `m_sub` releases the
registration the old handle held, if it was live. -/
def start (cfg : Config) (now : Time) (s : State) : Out Unit :=
  { ret := ()
    state :=
      { s with
        m_timeout_check_timer := s.m_timeout_check_timer.start now
        m_sub := { topic := cfg.resolveName cfg.topic_name, active := true }
        m_nh := { n_callbacks := s.m_nh.n_callbacks + 1 - (if s.m_sub.active then 1 else 0) } }
    log := [Event.timer_start] }

/-- The method `stop()`. -/
def stop (s : State) : Out Unit :=
  { ret := ()
    state :=
      { s with
        m_timeout_check_timer := s.m_timeout_check_timer.stop
        m_sub := s.m_sub.shutdown
        m_nh := { n_callbacks := s.m_nh.n_callbacks - (if s.m_sub.active then 1 else 0) } }
    log := [Event.timer_stop] }

/-- The method `check_timeout(evt)`, run at time `now` with `n_pubs` publishers
reported by the transport. Its guard on `m_last_msg_received_mtx` is taken and
released around the read of `m_last_msg_received`, before the timer is started
again. -/
def check_timeout (cfg : Config) (now : Time) (n_pubs : Nat) (s : State) : Out Unit :=
  let last_msg := s.m_last_msg_received
  let s1 : State :=
    { s with
      m_ok := some false
      m_timeout_check_timer := (s.m_timeout_check_timer.stop).start now }
  { ret := (), state := s1
    log := [Event.timer_stop, Event.timer_start,
            if cfg.timeout_callback then
              Event.timeout_callback (resolved_topic_name cfg s1) last_msg n_pubs
            else
              Event.default_timeout_callback (resolved_topic_name cfg s1) last_msg n_pubs] }

/-! ## The handle as a transition system -/

/-- Whether a delivery reaches `data_callback_unchecked`: always under the unordered
policy, and under the time-consistent one when `message_valid || time_reset`
holds. -/
def accepts (cfg : Config) (msg : Msg) (now : Time) (s : State) : Bool :=
  if cfg.time_consistent then
    match message_valid msg s with
    | none => false
    | some valid => valid || check_time_reset now s
  else true

/-- Whether a delivery takes the branch that skips the message: the time-consistent
policy with `message_valid || time_reset` false. -/
def rejects (cfg : Config) (msg : Msg) (now : Time) (s : State) : Bool :=
  if cfg.time_consistent then
    match message_valid msg s with
    | none => false
    | some valid => !(valid || check_time_reset now s)
  else false

/-- Whether the configured message callback leaves the wrapper of `msg` marked
consumed; false when no callback is configured. -/
def marks_consumed (cfg : Config) (msg : Msg) : Bool :=
  match cfg.message_callback with
  | none => false
  | some cb => (cb (MessageWrapper.create (some msg) cfg.topic_name)).usedMsg

/-- Whether an event is a call of the user message callback. -/
def Event.isMessageCallback : Event → Bool
  | Event.message_callback _ => true
  | _ => false

/-- The operations on a handle: the public methods, a delivery by the transport
and an expiry of the timeout timer. -/
inductive Op where
  | getMsg
  | peekMsg
  | hasMsg
  | newMsg
  | usedMsg
  | lastMsgTime
  | topicName
  | start (now : Time)
  | stop
  | data_callback (msg : Msg) (now : Time)
  | check_timeout (now : Time) (n_pubs : Nat)
deriving DecidableEq, Repr

/-- One operation on the handle: the successor state and what was emitted, or
`none` when the process ends in it. -/
def step (cfg : Config) (op : Op) (s : State) : Option (State × List Event) :=
  match op with
  | Op.getMsg => (getMsg cfg s).map fun o => (o.state, o.log)
  | Op.peekMsg => (peekMsg cfg s).map fun o => (o.state, o.log)
  | Op.hasMsg => some (s, [])
  | Op.newMsg => some (s, [])
  | Op.usedMsg => some (s, [])
  | Op.lastMsgTime => some (s, [])
  | Op.topicName => some (s, [])
  | Op.start now => some ((start cfg now s).state, (start cfg now s).log)
  | Op.stop => some ((stop s).state, (stop s).log)
  | Op.data_callback msg now => (data_callback cfg msg now s).map fun o => (o.state, o.log)
  | Op.check_timeout now n_pubs =>
    some ((check_timeout cfg now n_pubs s).state, (check_timeout cfg now n_pubs s).log)

/-- When the environment can issue an operation: the transport delivers only to a
live registration, the timer expires only when armed and due; the public methods
can be called at any time. -/
def Op.enabled (op : Op) (s : State) : Bool :=
  match op with
  | Op.data_callback _ _ => s.m_sub.active
  | Op.check_timeout now _ =>
    match s.m_timeout_check_timer.next_expected with
    | some deadline => decide (deadline ≤ now)
    | none => false
  | _ => true

/-- The operations that neither take the message nor are a delivery. -/
def Op.quiet (op : Op) : Bool :=
  match op with
  | Op.getMsg => false
  | Op.data_callback _ _ => false
  | _ => true

/-- The states a handle built with `cfg` can be in. -/
inductive Reachable (cfg : Config) : State → Prop where
  | construct (now : Time) : Reachable cfg (construct cfg now).state
  | step (op : Op) (s s1 : State) (log : List Event) :
      Reachable cfg s → op.enabled s = true → step cfg op s = some (s1, log) →
      Reachable cfg s1

/-- The invariants of the data model: the stored pointer is non-null exactly when
data was received, and new data implies received data. -/
def WellFormed (s : State) : Prop :=
  (s.m_got_data = true ↔ s.m_latest_message.isSome = true) ∧
  (s.m_new_data = true → s.m_got_data = true)

instance (s : State) : Decidable (WellFormed s) := by
  unfold WellFormed; infer_instance

/-! ## Sequences of operations -/

/-- Any sequence of operations, one after the other; `none` when the process ends
in one of them. -/
def run (cfg : Config) : List Op → State → Option State
  | [], s => some s
  | op :: ops, s =>
    match step cfg op s with
    | none => none
    | some (s1, _) => run cfg ops s1

/-- A sequence of operations as the environment can issue it: every operation is
enabled in the state it meets. Returns the final state and everything emitted, in
order; `none` when an operation is not enabled or the process ends. -/
def exec (cfg : Config) : List Op → State → Option (State × List Event)
  | [], s => some (s, [])
  | op :: ops, s =>
    if op.enabled s then
      match step cfg op s with
      | none => none
      | some (s1, log) =>
        match exec cfg ops s1 with
        | none => none
        | some (s2, log2) => some (s2, log ++ log2)
    else none

/-- Whether an event is a call of the timeout callback, the user's or the default
one. -/
def Event.isTimeoutCallback : Event → Bool
  | Event.timeout_callback _ _ _ => true
  | Event.default_timeout_callback _ _ _ => true
  | _ => false

/-- The next expiry of the timer: it happens at the pending deadline, where
`check_timeout` runs. Returns the time of the expiry and the outcome of
`check_timeout`; `none` when no expiry is pending. -/
def expire (cfg : Config) (n_pubs : Nat) (s : State) : Option (Time × Out Unit) :=
  match s.m_timeout_check_timer.next_expected with
  | some deadline => some (deadline, check_timeout cfg deadline n_pubs s)
  | none => none

/-- The first `k` expiries of the timer when nothing else happens to the handle:
the times at which `check_timeout` ran, and the state after the last one. -/
def expiries (cfg : Config) (n_pubs : Nat) : Nat → State → Option (List Time × State)
  | 0, s => some ([], s)
  | k + 1, s =>
    match expire cfg n_pubs s with
    | none => none
    | some (t, o) =>
      match expiries cfg n_pubs k o.state with
      | none => none
      | some (ts, s2) => some (t :: ts, s2)

/-- The transport holds one registration of the handle's `data_callback` exactly
while `m_sub` is live. -/
def Registered (s : State) : Prop :=
  s.m_nh.n_callbacks = if s.m_sub.active then 1 else 0

instance (s : State) : Decidable (Registered s) := by
  unfold Registered; infer_instance

/-- A handle without timer is never armed. -/
def TimerIdle (s : State) : Prop :=
  s.m_timeout_check_timer.valid = false →
    s.m_timeout_check_timer.started = false ∧ s.m_timeout_check_timer.next_expected = none

/-! ## The class `SubscribeHandler_threadsafe` -/

/-- What a method of the handle returns. -/
inductive Ret where
  | void
  | bool (b : Bool)
  | msg (ptr : MsgPtr)
  | time (t : Time)
  | string (str : String)
deriving DecidableEq, Repr

/-- A call of the method of `SubscribeHandler_impl` that an operation names, with
its return value. -/
def call (cfg : Config) (op : Op) (s : State) : Option (Out Ret) :=
  match op with
  | Op.getMsg => (getMsg cfg s).map fun o => { ret := Ret.msg o.ret, state := o.state, log := o.log }
  | Op.peekMsg =>
    (peekMsg cfg s).map fun o => { ret := Ret.msg o.ret, state := o.state, log := o.log }
  | Op.hasMsg => some { ret := Ret.bool (hasMsg s), state := s, log := [] }
  | Op.newMsg => some { ret := Ret.bool (newMsg s), state := s, log := [] }
  | Op.usedMsg => some { ret := Ret.bool (usedMsg s), state := s, log := [] }
  | Op.lastMsgTime => some { ret := Ret.time (lastMsgTime s), state := s, log := [] }
  | Op.topicName => some { ret := Ret.string (topicName cfg), state := s, log := [] }
  | Op.start now =>
    some { ret := Ret.void, state := (start cfg now s).state, log := (start cfg now s).log }
  | Op.stop => some { ret := Ret.void, state := (stop s).state, log := (stop s).log }
  | Op.data_callback msg now =>
    (data_callback cfg msg now s).map fun o =>
      { ret := Ret.void, state := o.state, log := o.log }
  | Op.check_timeout now n_pubs =>
    some { ret := Ret.void, state := (check_timeout cfg now n_pubs s).state
           log := (check_timeout cfg now n_pubs s).log }

/-- The member variables of `SubscribeHandler_threadsafe`: those of the base class
`SubscribeHandler_impl` and the recursive mutex `m_mtx`, known by how many times the
calling thread holds it. -/
structure ThreadsafeState where
  impl : State
  m_mtx : Nat
deriving DecidableEq, Repr

/-- What a method of the thread-safe handle does, in order: it takes or releases
`m_mtx`, or a method of the base class runs on the member variables, emitting
`events`. -/
inductive TsEvent where
  | mtx_lock
  | mtx_unlock
  | access (events : List Event)
deriving DecidableEq, Repr

/-- The outcome of a method of the thread-safe handle that returns. -/
structure TsOut (α : Type) where
  ret : α
  state : ThreadsafeState
  log : List TsEvent

namespace SubscribeHandler_threadsafe

/-- The constructor: that of the base class; the mutex is free. -/
def construct (cfg : Config) (now : Time) : ThreadsafeState :=
  { impl := (mrs_lib.construct cfg now).state, m_mtx := 0 }

/-- The body of every override: `std::lock_guard<std::recursive_mutex> lck(m_mtx)`
around the call of the base-class method. The guard takes the mutex on entry and
releases it when the method returns. -/
def lock_guard {α : Type} (ts : ThreadsafeState) (body : State → Option (Out α)) :
    Option (TsOut α) :=
  let locked : ThreadsafeState := { ts with m_mtx := ts.m_mtx + 1 }
  match body locked.impl with
  | none => none
  | some o =>
    some { ret := o.ret
           state := { impl := o.state, m_mtx := locked.m_mtx - 1 }
           log := [TsEvent.mtx_lock, TsEvent.access o.log, TsEvent.mtx_unlock] }

/-- A method of the base class that the thread-safe class does not override: it
runs as it is, the mutex untouched. -/
def inherited {α : Type} (ts : ThreadsafeState) (body : State → Option (Out α)) :
    Option (TsOut α) :=
  match body ts.impl with
  | none => none
  | some o =>
    some { ret := o.ret, state := { ts with impl := o.state }, log := [TsEvent.access o.log] }

/-- The override `data_callback(msg)`. -/
def data_callback (cfg : Config) (msg : Msg) (now : Time) (ts : ThreadsafeState) :
    Option (TsOut Unit) :=
  lock_guard ts (mrs_lib.data_callback cfg msg now)

/-- The override `hasMsg()`. -/
def hasMsg (ts : ThreadsafeState) : Option (TsOut Bool) :=
  lock_guard ts fun s => some { ret := mrs_lib.hasMsg s, state := s, log := [] }

/-- The override `newMsg()`. -/
def newMsg (ts : ThreadsafeState) : Option (TsOut Bool) :=
  lock_guard ts fun s => some { ret := mrs_lib.newMsg s, state := s, log := [] }

/-- The override `usedMsg()`. -/
def usedMsg (ts : ThreadsafeState) : Option (TsOut Bool) :=
  lock_guard ts fun s => some { ret := mrs_lib.usedMsg s, state := s, log := [] }

/-- The override `getMsg()`. -/
def getMsg (cfg : Config) (ts : ThreadsafeState) : Option (TsOut MsgPtr) :=
  lock_guard ts (mrs_lib.getMsg cfg)

/-- The override `peekMsg()`. -/
def peekMsg (cfg : Config) (ts : ThreadsafeState) : Option (TsOut MsgPtr) :=
  lock_guard ts (mrs_lib.peekMsg cfg)

/-- The override `lastMsgTime()`. -/
def lastMsgTime (ts : ThreadsafeState) : Option (TsOut Time) :=
  lock_guard ts fun s => some { ret := mrs_lib.lastMsgTime s, state := s, log := [] }

/-- The override `topicName()`. -/
def topicName (cfg : Config) (ts : ThreadsafeState) : Option (TsOut String) :=
  lock_guard ts fun s => some { ret := mrs_lib.topicName cfg, state := s, log := [] }

/-- The override `start()`. -/
def start (cfg : Config) (now : Time) (ts : ThreadsafeState) : Option (TsOut Unit) :=
  lock_guard ts fun s => some (mrs_lib.start cfg now s)

/-- The override `stop()`. -/
def stop (ts : ThreadsafeState) : Option (TsOut Unit) :=
  lock_guard ts fun s => some (mrs_lib.stop s)

/-- The timer callback `check_timeout(evt)`: the constructor of the base class binds
`SubscribeHandler_impl::check_timeout`, which is not virtual and has no override. -/
def check_timeout (cfg : Config) (now : Time) (n_pubs : Nat) (ts : ThreadsafeState) :
    Option (TsOut Unit) :=
  inherited ts fun s => some (mrs_lib.check_timeout cfg now n_pubs s)

/-- A call of the method of the thread-safe handle that an operation names, with
its return value. -/
def call (cfg : Config) (op : Op) (ts : ThreadsafeState) : Option (TsOut Ret) :=
  match op with
  | Op.getMsg => (getMsg cfg ts).map fun o => { ret := Ret.msg o.ret, state := o.state, log := o.log }
  | Op.peekMsg =>
    (peekMsg cfg ts).map fun o => { ret := Ret.msg o.ret, state := o.state, log := o.log }
  | Op.hasMsg => (hasMsg ts).map fun o => { ret := Ret.bool o.ret, state := o.state, log := o.log }
  | Op.newMsg => (newMsg ts).map fun o => { ret := Ret.bool o.ret, state := o.state, log := o.log }
  | Op.usedMsg =>
    (usedMsg ts).map fun o => { ret := Ret.bool o.ret, state := o.state, log := o.log }
  | Op.lastMsgTime =>
    (lastMsgTime ts).map fun o => { ret := Ret.time o.ret, state := o.state, log := o.log }
  | Op.topicName =>
    (topicName cfg ts).map fun o => { ret := Ret.string o.ret, state := o.state, log := o.log }
  | Op.start now =>
    (start cfg now ts).map fun o => { ret := Ret.void, state := o.state, log := o.log }
  | Op.stop => (stop ts).map fun o => { ret := Ret.void, state := o.state, log := o.log }
  | Op.data_callback msg now =>
    (data_callback cfg msg now ts).map fun o =>
      { ret := Ret.void, state := o.state, log := o.log }
  | Op.check_timeout now n_pubs =>
    (check_timeout cfg now n_pubs ts).map fun o =>
      { ret := Ret.void, state := o.state, log := o.log }

end SubscribeHandler_threadsafe

/-- Whether every run of a base-class method in the log happens while the calling
thread holds `m_mtx`, the thread entering with the mutex held `depth` times. -/
def guarded (depth : Nat) : List TsEvent → Bool
  | [] => true
  | TsEvent.mtx_lock :: es => guarded (depth + 1) es
  | TsEvent.mtx_unlock :: es => guarded (depth - 1) es
  | TsEvent.access _ :: es => decide (0 < depth) && guarded depth es

/-- Whether the operation is one of the methods the thread-safe class overrides;
the timer callback is not. -/
def Op.overridden (op : Op) : Bool :=
  match op with
  | Op.check_timeout _ _ => false
  | _ => true

/-! ## Activity of the timer and runs of deliveries -/

/-- Whether the handle has been started and not stopped since, after the operations
`ops`, given whether it was so before them. -/
def live_after (live : Bool) : List Op → Bool
  | [] => live
  | op :: ops =>
    match op with
    | Op.start _ => live_after true ops
    | Op.stop => live_after false ops
    | _ => live_after live ops

/-- The timer is started exactly when it exists and `m_sub` is live, and a deadline
is pending exactly when it is started. -/
def TimerActive (s : State) : Prop :=
  s.m_timeout_check_timer.started = (s.m_timeout_check_timer.valid && s.m_sub.active) ∧
  s.m_timeout_check_timer.next_expected.isSome = s.m_timeout_check_timer.started

instance (s : State) : Decidable (TimerActive s) := by
  unfold TimerActive; infer_instance

/-- Whether the arrival times of the deliveries never decrease and none is before
`t0`. -/
def arrivals_ordered (t0 : Time) : List (Msg × Time) → Bool
  | [] => true
  | d :: ds => decide (t0 ≤ d.2) && arrivals_ordered d.2 ds

/-- A sequence of deliveries, each a message and its arrival time: the states of the
handle after each of them; `none` when the process ends in one. -/
def deliveries (cfg : Config) : List (Msg × Time) → State → Option (List State)
  | [], _ => some []
  | d :: ds, s =>
    match data_callback cfg d.1 d.2 s with
    | none => none
    | some o =>
      match deliveries cfg ds o.state with
      | none => none
      | some states => some (o.state :: states)

/-- The last of the successive states, `s` when there is none. -/
def last_state (s : State) : List State → State
  | [] => s
  | s1 :: states => last_state s1 states

/-- The `header.stamp` of the stored message, 0 while the stored pointer is null. -/
def latest_stamp (s : State) : Time :=
  match s.m_latest_message with
  | some latest => latest.stamp
  | none => 0

/-! ## The class `NotchFilter` of `src/notch_filter/notch_filter.cpp` -/

/-- A `double`, known by the number it stands for. No arithmetic on doubles is
modelled: the recursion of the IIR filter is a parameter. -/
abbrev Double := Rat

/-- Modelled from the spec: the class `IirFilter` of `mrs_lib/iir_filter.h`, which is
not among the sources (the spec keeps the IIR filter an external collaborator). It
is taken as a parameter: the type of its objects, its constructor from the two
coefficient vectors, and its method `iterate`, which returns the output sample and
the filter with its updated memory. -/
structure IirClass where
  Obj : Type
  construct : List Double → List Double → Obj
  iterate : Obj → Double → Double × Obj

/-- The member variable of `NotchFilter`: the pointer `filter`, a `std::unique_ptr`;
`none` is the null pointer. -/
structure NotchFilter (iir : IirClass) where
  filter : Option iir.Obj

/-- What a constructor of `NotchFilter` emits. -/
inductive NotchEvent where
  | ros_error_lengths
  | ros_shutdown
  | ros_info_initialized
deriving DecidableEq, Repr

namespace NotchFilter

/-- The vector `a_std` handed to `IirFilter`: the literals pushed in the
constructor. -/
def a_std : List Double := [1.0, -5.83234, 14.29652, -18.85290, 14.10633, -5.67823, 0.96064]

/-- The vector `b_std` handed to `IirFilter`: the literals pushed in the
constructor. -/
def b_std : List Double := [0.98032, -5.75529, 14.20142, -18.85290, 14.20142, -5.75529, 0.98032]

/-- The constructor `NotchFilter(sample_rate, frequencies_in, bandwidths_in)`. On
vectors of different or zero length it logs an error and asks for shutdown, and goes
on (the reads of `bandwidths_in[i]` past the end of a shorter vector are not
modelled). The coefficients it computes from its arguments (`h_a`, `a`, `b`) are not
used: `filter` is made from the literal vectors `a_std` and `b_std`. -/
def construct_vector (iir : IirClass) (_sample_rate : Double)
    (frequencies_in bandwidths_in : List Double) : NotchFilter iir × List NotchEvent :=
  ({ filter := some (iir.construct a_std b_std) },
   (if frequencies_in.length != bandwidths_in.length || frequencies_in.length == 0 then
      [NotchEvent.ros_error_lengths, NotchEvent.ros_shutdown]
    else []) ++ [NotchEvent.ros_info_initialized])

/-- The constructor `NotchFilter(sample_rate, frequency_in, bandwidth_in)`. The
statement `NotchFilter(sample_rate, f_tmp, b_tmp);` in its body builds a temporary
object with the vector constructor and destroys it; the member `filter` of the
object under construction keeps its default value, the null pointer. -/
def construct_single (iir : IirClass) (sample_rate frequency_in bandwidth_in : Double) :
    NotchFilter iir × List NotchEvent :=
  let f_tmp := [frequency_in]
  let b_tmp := [bandwidth_in]
  let temporary := construct_vector iir sample_rate f_tmp b_tmp
  ({ filter := none }, temporary.2)

/-- The method `iterate(sample_in)`: `filter.get()->iterate(sample_in)`. On the null
pointer the process ends (`none`). -/
def iterate (iir : IirClass) (nf : NotchFilter iir) (sample_in : Double) :
    Option (Double × NotchFilter iir) :=
  match nf.filter with
  | none => none
  | some f => some ((iir.iterate f sample_in).1, { filter := some (iir.iterate f sample_in).2 })

end NotchFilter

/-! ## Sample configurations and states -/

/-- A handle on the unordered policy, 5 ns timeout, no message callback, built with
assertions. -/
def cfg_unordered : Config :=
  { no_message_timeout := 5
    topic_name := "odom"
    node_name := "node"
    queue_size := 10
    timeout_callback := false
    message_callback := none
    time_consistent := false
    resolveName := fun name => "/uav1/" ++ name
    ndebug := false }

/-- The same handle on the time-consistent policy. -/
def cfg_consistent : Config := { cfg_unordered with time_consistent := true }

/-- The time-consistent handle in a build that defines `NDEBUG`. -/
def cfg_release : Config := { cfg_consistent with ndebug := true }

/-- The time-consistent handle with a message callback that marks every message
consumed. -/
def cfg_consuming : Config :=
  { cfg_consistent with message_callback := some MessageWrapper.markConsumed }

/-- The time-consistent handle with a message callback that only looks at the
message. -/
def cfg_looking : Config :=
  { cfg_consistent with message_callback := some fun wrp => wrp }

/-- The time-consistent handle configured with the `no_timeout` sentinel. -/
def cfg_untimed : Config := { cfg_consistent with no_message_timeout := no_timeout }

/-- The message M1 of the scenarios: embedded timestamp 10. -/
def msg1 : Msg := { stamp := 10, data := 1 }

/-- The message M2 of the scenarios: embedded timestamp 3, older than M1. -/
def msg2 : Msg := { stamp := 3, data := 2 }

/-- A message newer than M1. -/
def msg3 : Msg := { stamp := 12, data := 3 }

/-- A freshly constructed handle (at time 0). -/
def state_fresh : State := (construct cfg_consistent 0).state

/-- A handle without timeout, constructed and started at time 0. -/
def state_untimed : State := (start cfg_untimed 0 (construct cfg_untimed 0).state).state

/-- The fresh handle after `start()` at time 0 and the delivery of M1 at time 10. -/
def state_one : State :=
  process_new_message msg1 10 (start cfg_consistent 0 state_fresh).state

/-- The untimed handle after the delivery of M1 at time 10. -/
def state_untimed_one : State := process_new_message msg1 10 state_untimed

/-- A life of the untimed handle: started, M1 delivered and taken, stopped and
started again. -/
def untimed_ops : List Op :=
  [Op.start 0, Op.data_callback msg1 10, Op.getMsg, Op.stop, Op.start 20]

/-- The state of the untimed handle after `untimed_ops`. -/
def state_untimed_final : State :=
  (start cfg_untimed 20
    (stop { state_untimed_one with m_new_data := false, m_used_data := true }).state).state

/-- What the untimed handle emits during `untimed_ops`. -/
def untimed_log : List Event :=
  [Event.timer_start, Event.timer_stop, Event.timer_start, Event.timer_stop, Event.timer_start]

/-- The fresh handle after `start()` at time 0. -/
def state_started : State := (start cfg_consistent 0 state_fresh).state

/-- The thread-safe handle holding `state_one`, its mutex free. -/
def ts_one : ThreadsafeState := { impl := state_one, m_mtx := 0 }

/-- A life of the timed handle: started, M1 delivered, one expiry, stopped. -/
def timed_ops : List Op :=
  [Op.start 0, Op.data_callback msg1 10, Op.check_timeout 15 1, Op.stop]

/-- The state of the timed handle after `timed_ops`. -/
def state_timed_final : State := (stop (check_timeout cfg_consistent 15 1 state_one).state).state

/-- What the timed handle emits during `timed_ops`. -/
def timed_log : List Event :=
  [Event.timer_start, Event.timer_stop, Event.timer_start] ++
    (check_timeout cfg_consistent 15 1 state_one).log ++ [Event.timer_stop]

/-- Three deliveries in order of arrival: M1, the older M2, the newer M3. -/
def three_deliveries : List (Msg × Time) := [(msg1, 10), (msg2, 20), (msg3, 30)]

/-! ## Lemmas on the collaborators and the delivery path -/

theorem Timer.started_stop_start (t : Timer) (now : Time) (h : t.valid = true) :
    ((t.stop).start now).started = true ∧
    ((t.stop).start now).next_expected = some (now + t.period) := by
  cases hs : t.started <;> simp [Timer.stop, Timer.start, h, hs]

theorem resolved_topic_name_congr (cfg : Config) (s s1 : State) (h : s1.m_sub = s.m_sub) :
    resolved_topic_name cfg s1 = resolved_topic_name cfg s := by
  simp [resolved_topic_name, h]

theorem peekMsg_of_got (cfg : Config) (s : State) (h : s.m_got_data = true) :
    peekMsg cfg s = some { ret := s.m_latest_message, state := s, log := [] } := by
  simp [peekMsg, h]

theorem peekMsg_of_ndebug (cfg : Config) (s : State) (h : cfg.ndebug = true) :
    peekMsg cfg s =
      some { ret := s.m_latest_message, state := s
             log := if !s.m_got_data then [Event.ros_error_no_data (resolved_topic_name cfg s)]
                    else [] } := by
  simp [peekMsg, h]

theorem getMsg_some_of_got (cfg : Config) (s : State) (h : s.m_got_data = true) :
    getMsg cfg s =
      some { ret := s.m_latest_message
             state := { s with m_new_data := false, m_used_data := true }
             log := [] } := by
  simp [getMsg, peekMsg, h]

theorem peekMsg_state (cfg : Config) (s : State) (o : Out MsgPtr) (h : peekMsg cfg s = some o) :
    o.state = s ∧ o.ret = s.m_latest_message := by
  unfold peekMsg at h
  split at h
  · simp at h
  · simp only [Option.some.injEq] at h
    subst h
    exact ⟨rfl, rfl⟩

theorem data_callback_unchecked_state (cfg : Config) (msg : Msg) (time : Time) (s : State) :
    (data_callback_unchecked cfg msg time s).state =
      { process_new_message msg time s with
        m_new_data := !marks_consumed cfg msg } := by
  unfold data_callback_unchecked marks_consumed
  cases hcb : cfg.message_callback with
  | none => simp [process_new_message]
  | some cb =>
    cases hused : (cb (MessageWrapper.create (some msg) cfg.topic_name)).usedMsg <;>
      simp [hused, process_new_message]

theorem data_callback_of_accepts (cfg : Config) (msg : Msg) (now : Time) (s : State)
    (h : accepts cfg msg now s = true) :
    data_callback cfg msg now s =
      some { ret := ()
             state := (data_callback_unchecked cfg msg now s).state
             log := (if cfg.time_consistent && check_time_reset now s then
                       [Event.ros_warn_time_reset s.m_last_msg_received now]
                     else []) ++ (data_callback_unchecked cfg msg now s).log } := by
  unfold accepts at h
  unfold data_callback data_callback_impl_true data_callback_impl_false
  cases hpol : cfg.time_consistent
  · simp
  · simp only [hpol, if_true] at h ⊢
    cases hv : message_valid msg s with
    | none => simp [hv] at h
    | some valid =>
      simp only [hv] at h
      simp [h]

theorem data_callback_of_rejects (cfg : Config) (msg : Msg) (now : Time) (s : State)
    (h : rejects cfg msg now s = true) :
    data_callback cfg msg now s =
      some { ret := (), state := s
             log := [Event.ros_warn_older (resolved_topic_name cfg s)] } := by
  unfold rejects at h
  unfold data_callback data_callback_impl_true
  cases hpol : cfg.time_consistent
  · simp [hpol] at h
  · simp only [hpol, if_true] at h ⊢
    cases hv : message_valid msg s with
    | none => simp [hv] at h
    | some valid =>
      simp only [hv] at h
      have h1 : (valid || check_time_reset now s) = false := by simpa using h
      simp [h1]

theorem data_callback_accepts_or_rejects (cfg : Config) (msg : Msg) (now : Time) (s : State)
    (o : Out Unit) (h : data_callback cfg msg now s = some o) :
    accepts cfg msg now s = true ∨ rejects cfg msg now s = true := by
  unfold data_callback data_callback_impl_true at h
  unfold accepts rejects
  cases hpol : cfg.time_consistent
  · simp
  · simp only [hpol, if_true] at h ⊢
    cases hv : message_valid msg s with
    | none => simp [hv] at h
    | some valid => cases hb : (valid || check_time_reset now s) <;> simp [hb]

theorem accepts_of_no_data (cfg : Config) (msg : Msg) (now : Time) (s : State)
    (h : s.m_got_data = false) : accepts cfg msg now s = true := by
  unfold accepts
  cases hpol : cfg.time_consistent <;> simp [message_valid, h]

theorem message_valid_of_ptr (msg : Msg) (s : State)
    (hptr : s.m_got_data = true → s.m_latest_message.isSome = true) :
    ∃ valid, message_valid msg s = some valid := by
  cases hg : s.m_got_data
  · exact ⟨true, by simp [message_valid, hg]⟩
  · have := hptr hg
    cases hl : s.m_latest_message with
    | none => simp [hl] at this
    | some latest =>
      exact ⟨decide (msg.stamp ≥ latest.stamp),
        by simp [message_valid, check_time_consistent, hg, hl]⟩

theorem data_callback_returns (cfg : Config) (msg : Msg) (now : Time) (s : State)
    (hptr : s.m_got_data = true → s.m_latest_message.isSome = true) :
    ∃ o, data_callback cfg msg now s = some o := by
  obtain ⟨valid, hv⟩ := message_valid_of_ptr msg s hptr
  unfold data_callback data_callback_impl_true
  cases hpol : cfg.time_consistent
  · exact ⟨data_callback_impl_false cfg msg now s, by simp⟩
  · simp only [hv, if_true]
    split <;> exact ⟨_, rfl⟩

/-- What one operation does to `m_got_data`, `m_new_data` and `m_latest_message`,
whenever it returns. -/
theorem step_flags (cfg : Config) (op : Op) (s s1 : State) (log : List Event)
    (h : step cfg op s = some (s1, log)) :
    (s1.m_got_data = true ↔ s.m_got_data = true ∨
      ∃ msg now, op = Op.data_callback msg now ∧ accepts cfg msg now s = true) ∧
    (s1.m_new_data = true ↔
      (∃ msg now, op = Op.data_callback msg now ∧ accepts cfg msg now s = true ∧
        marks_consumed cfg msg = false) ∨
      (s.m_new_data = true ∧ op ≠ Op.getMsg ∧
        ¬ ∃ msg now, op = Op.data_callback msg now ∧ accepts cfg msg now s = true)) ∧
    (s1.m_latest_message.isSome = true ↔ s.m_latest_message.isSome = true ∨
      ∃ msg now, op = Op.data_callback msg now ∧ accepts cfg msg now s = true) := by
  cases op with
  | getMsg =>
    simp only [step, Option.map_eq_some', Prod.mk.injEq] at h
    obtain ⟨o, ho, hs, -⟩ := h
    obtain ⟨hst, -⟩ := peekMsg_state cfg _ o ho
    rw [← hs, hst]
    simp
  | peekMsg =>
    simp only [step, Option.map_eq_some', Prod.mk.injEq] at h
    obtain ⟨o, ho, hs, -⟩ := h
    obtain ⟨hst, -⟩ := peekMsg_state cfg _ o ho
    rw [← hs, hst]
    simp
  | data_callback msg now =>
    simp only [step, Option.map_eq_some', Prod.mk.injEq] at h
    obtain ⟨o, ho, hs, -⟩ := h
    rcases data_callback_accepts_or_rejects cfg msg now s o ho with hacc | hrej
    · rw [data_callback_of_accepts cfg msg now s hacc] at ho
      simp only [Option.some.injEq] at ho
      rw [← hs, ← ho]
      have hex : ∃ m n, Op.data_callback msg now = Op.data_callback m n ∧
          accepts cfg m n s = true := ⟨msg, now, rfl, hacc⟩
      refine ⟨⟨fun _ => Or.inr hex, fun _ => ?_⟩, ⟨fun hnew => ?_, ?_⟩,
        ⟨fun _ => Or.inr hex, fun _ => ?_⟩⟩
      · simp [data_callback_unchecked_state, process_new_message]
      · exact Or.inl ⟨msg, now, rfl, hacc,
          by simpa [data_callback_unchecked_state] using hnew⟩
      · rintro (⟨m, n, hop, -, hm⟩ | ⟨-, -, hne⟩)
        · cases hop
          simp [data_callback_unchecked_state, hm]
        · exact absurd hex hne
      · simp [data_callback_unchecked_state, process_new_message]
    · have hnacc : accepts cfg msg now s = false := by
        unfold rejects at hrej
        unfold accepts
        cases hpol : cfg.time_consistent
        · simp [hpol] at hrej
        · simp only [hpol, if_true] at hrej ⊢
          cases hv : message_valid msg s with
          | none => rfl
          | some valid => simpa [hv] using hrej
      rw [data_callback_of_rejects cfg msg now s hrej] at ho
      simp only [Option.some.injEq] at ho
      rw [← hs, ← ho]
      simp [hnacc]
  | hasMsg => simp only [step, Option.some.injEq, Prod.mk.injEq] at h; rw [← h.1]; simp
  | newMsg => simp only [step, Option.some.injEq, Prod.mk.injEq] at h; rw [← h.1]; simp
  | usedMsg => simp only [step, Option.some.injEq, Prod.mk.injEq] at h; rw [← h.1]; simp
  | lastMsgTime => simp only [step, Option.some.injEq, Prod.mk.injEq] at h; rw [← h.1]; simp
  | topicName => simp only [step, Option.some.injEq, Prod.mk.injEq] at h; rw [← h.1]; simp
  | start now =>
    simp only [step, Option.some.injEq, Prod.mk.injEq] at h; rw [← h.1]; simp [start]
  | stop => simp only [step, Option.some.injEq, Prod.mk.injEq] at h; rw [← h.1]; simp [stop]
  | check_timeout now n_pubs =>
    simp only [step, Option.some.injEq, Prod.mk.injEq] at h; rw [← h.1]; simp [check_timeout]

/-- An operation returns on every state that has data and a non-null stored
pointer. -/
theorem step_returns (cfg : Config) (op : Op) (s : State)
    (hgot : s.m_got_data = true) (hptr : s.m_latest_message.isSome = true) :
    ∃ s1 log, step cfg op s = some (s1, log) := by
  cases op with
  | getMsg =>
    exact ⟨{ s with m_new_data := false, m_used_data := true }, [],
      by simp [step, getMsg_some_of_got cfg s hgot]⟩
  | peekMsg => exact ⟨s, [], by simp [step, peekMsg_of_got cfg s hgot]⟩
  | data_callback msg now =>
    obtain ⟨o, ho⟩ := data_callback_returns cfg msg now s (fun _ => hptr)
    exact ⟨o.state, o.log, by simp [step, ho]⟩
  | hasMsg => exact ⟨_, _, rfl⟩
  | newMsg => exact ⟨_, _, rfl⟩
  | usedMsg => exact ⟨_, _, rfl⟩
  | lastMsgTime => exact ⟨_, _, rfl⟩
  | topicName => exact ⟨_, _, rfl⟩
  | start now => exact ⟨_, _, rfl⟩
  | stop => exact ⟨_, _, rfl⟩
  | check_timeout now n_pubs => exact ⟨_, _, rfl⟩

/-- Every operation that returns keeps the invariants of the data model. -/
theorem step_wellFormed (cfg : Config) (op : Op) (s s1 : State) (log : List Event)
    (hwf : WellFormed s) (h : step cfg op s = some (s1, log)) : WellFormed s1 := by
  obtain ⟨hg, hn, hl⟩ := step_flags cfg op s s1 log h
  obtain ⟨hwf1, hwf2⟩ := hwf
  refine ⟨?_, ?_⟩
  · rw [hg, hl, hwf1]
  · intro hnew
    rw [hg]
    rcases hn.mp hnew with ⟨msg, now, hop, hacc, -⟩ | ⟨hs, -, -⟩
    · exact Or.inr ⟨msg, now, hop, hacc⟩
    · exact Or.inl (hwf2 hs)

/-- No operation creates or destroys the timer or changes its period. -/
theorem step_timer_shape (cfg : Config) (op : Op) (s s1 : State) (log : List Event)
    (h : step cfg op s = some (s1, log)) :
    s1.m_timeout_check_timer.valid = s.m_timeout_check_timer.valid ∧
    s1.m_timeout_check_timer.period = s.m_timeout_check_timer.period := by
  have hstart : ∀ (t : Timer) (now : Time),
      (t.start now).valid = t.valid ∧ (t.start now).period = t.period := by
    intro t now
    unfold Timer.start
    split <;> simp
  have hstop : ∀ t : Timer, t.stop.valid = t.valid ∧ t.stop.period = t.period := by
    intro t
    unfold Timer.stop
    split <;> simp
  have hboth : ∀ (t : Timer) (now : Time),
      ((t.stop).start now).valid = t.valid ∧ ((t.stop).start now).period = t.period := by
    intro t now
    rw [(hstart t.stop now).1, (hstart t.stop now).2]
    exact hstop t
  cases op with
  | getMsg =>
    simp only [step, Option.map_eq_some', Prod.mk.injEq] at h
    obtain ⟨o, ho, hs, -⟩ := h
    obtain ⟨hst, -⟩ := peekMsg_state cfg _ o ho
    rw [← hs, hst]
    exact ⟨rfl, rfl⟩
  | peekMsg =>
    simp only [step, Option.map_eq_some', Prod.mk.injEq] at h
    obtain ⟨o, ho, hs, -⟩ := h
    obtain ⟨hst, -⟩ := peekMsg_state cfg _ o ho
    rw [← hs, hst]
    exact ⟨rfl, rfl⟩
  | data_callback msg now =>
    simp only [step, Option.map_eq_some', Prod.mk.injEq] at h
    obtain ⟨o, ho, hs, -⟩ := h
    rcases data_callback_accepts_or_rejects cfg msg now s o ho with hacc | hrej
    · rw [data_callback_of_accepts cfg msg now s hacc] at ho
      simp only [Option.some.injEq] at ho
      rw [← hs, ← ho]
      simpa [data_callback_unchecked_state, process_new_message] using
        hboth s.m_timeout_check_timer now
    · rw [data_callback_of_rejects cfg msg now s hrej] at ho
      simp only [Option.some.injEq] at ho
      rw [← hs, ← ho]
      exact ⟨rfl, rfl⟩
  | hasMsg => simp only [step, Option.some.injEq, Prod.mk.injEq] at h; rw [← h.1]; simp
  | newMsg => simp only [step, Option.some.injEq, Prod.mk.injEq] at h; rw [← h.1]; simp
  | usedMsg => simp only [step, Option.some.injEq, Prod.mk.injEq] at h; rw [← h.1]; simp
  | lastMsgTime => simp only [step, Option.some.injEq, Prod.mk.injEq] at h; rw [← h.1]; simp
  | topicName => simp only [step, Option.some.injEq, Prod.mk.injEq] at h; rw [← h.1]; simp
  | start now =>
    simp only [step, Option.some.injEq, Prod.mk.injEq] at h
    rw [← h.1]
    simpa [start] using hstart s.m_timeout_check_timer now
  | stop =>
    simp only [step, Option.some.injEq, Prod.mk.injEq] at h
    rw [← h.1]
    simpa [stop] using hstop s.m_timeout_check_timer
  | check_timeout now n_pubs =>
    simp only [step, Option.some.injEq, Prod.mk.injEq] at h
    rw [← h.1]
    simpa [check_timeout] using hboth s.m_timeout_check_timer now

/-- In every state of a handle the timer exists exactly when the configured timeout
is not the `no_timeout` sentinel. -/
theorem reachable_timer_valid (cfg : Config) (s : State) (h : Reachable cfg s) :
    s.m_timeout_check_timer.valid = (cfg.no_message_timeout != no_timeout) := by
  induction h with
  | construct now =>
    cases hb : (cfg.no_message_timeout != no_timeout) <;>
      simp [construct, hb, Timer.createTimer, Timer.empty]
  | step op s s1 log _ _ hstep ih => rw [(step_timer_shape cfg op s s1 log hstep).1, ih]

/-- Every state a handle can be in satisfies the invariants of the data model. -/
theorem reachable_wellFormed (cfg : Config) (s : State) (h : Reachable cfg s) :
    WellFormed s := by
  induction h with
  | construct now => simp [WellFormed, construct]
  | step op s s1 log _ _ hstep ih => exact step_wellFormed cfg op s s1 log ih hstep

/-! ## Reading the message: `getMsg` and `peekMsg` -/

/-- C1: on a state with `m_got_data` set, `getMsg()` returns the stored
`m_latest_message` and its successor state differs from the old one only in
`m_new_data = false` and `m_used_data = true`; nothing is logged. -/
theorem getMsg_of_got (cfg : Config) (s : State) (h : s.m_got_data = true) :
    getMsg cfg s =
      some { ret := s.m_latest_message
             state := { s with m_new_data := false, m_used_data := true }
             log := [] } := by
  simp [getMsg, peekMsg, h]

theorem getMsg_of_got_witness :
    state_one.m_got_data = true ∧
    getMsg cfg_consistent state_one =
      some { ret := state_one.m_latest_message
             state := { state_one with m_new_data := false, m_used_data := true }
             log := [] } :=
  ⟨rfl, getMsg_of_got cfg_consistent state_one rfl⟩

/-- C2, as stated, fails: in a build with assertions, `peekMsg()` on a freshly
constructed handle does not return the stored pointer; the failed
`assert(m_got_data)` ends the process. -/
theorem peekMsg_fresh_debug_no_return :
    ¬ ∃ o, peekMsg cfg_consistent state_fresh = some o ∧
        o.ret = state_fresh.m_latest_message ∧ o.state = state_fresh := by
  rintro ⟨o, h, -⟩
  simp [peekMsg, cfg_consistent, cfg_unordered, state_fresh, construct] at h

/-- C2, amended: on every state with `m_got_data` set, and on every state at all in
a build that defines `NDEBUG`, `peekMsg()` returns the stored `m_latest_message` and
its successor state is the old state, every field unchanged. -/
theorem peekMsg_returns_latest_unchanged (cfg : Config) (s : State)
    (h : s.m_got_data = true ∨ cfg.ndebug = true) :
    ∃ o, peekMsg cfg s = some o ∧ o.ret = s.m_latest_message ∧ o.state = s := by
  rcases h with h | h
  · exact ⟨_, peekMsg_of_got cfg s h, rfl, rfl⟩
  · exact ⟨_, peekMsg_of_ndebug cfg s h, rfl, rfl⟩

theorem peekMsg_returns_latest_unchanged_witness :
    (state_fresh.m_got_data = true ∨ cfg_release.ndebug = true) ∧
    ∃ o, peekMsg cfg_release state_fresh = some o ∧
      o.ret = state_fresh.m_latest_message ∧ o.state = state_fresh :=
  ⟨Or.inr rfl, peekMsg_returns_latest_unchanged cfg_release state_fresh (Or.inr rfl)⟩

/-- C3, as stated, fails: in a build with assertions, `getMsg()` on a handle that
never accepted a message does not return; the failed `assert(m_got_data)` of
`peekMsg()` ends the process. -/
theorem getMsg_fresh_debug_aborts :
    state_fresh.m_got_data = false ∧ getMsg cfg_consistent state_fresh = none := by
  constructor
  · rfl
  · simp [getMsg, peekMsg, cfg_consistent, cfg_unordered, state_fresh, construct]

/-- C3, amended: on a handle that never accepted a message (`m_got_data` false, the
stored pointer null), in a build that defines `NDEBUG` both `peekMsg()` and
`getMsg()` return normally, with the null pointer and after logging one error, and
in such a build both return on every state; in a build with assertions both end the
process. -/
theorem read_without_data (cfg : Config) (s : State)
    (hgot : s.m_got_data = false) (hnull : s.m_latest_message = none) :
    (cfg.ndebug = true →
      (∃ o, peekMsg cfg s = some o ∧ o.ret = none ∧
        o.log = [Event.ros_error_no_data (resolved_topic_name cfg s)]) ∧
      (∃ o, getMsg cfg s = some o ∧ o.ret = none ∧
        o.log = [Event.ros_error_no_data (resolved_topic_name cfg s)])) ∧
    (cfg.ndebug = true →
      ∀ s1 : State, (peekMsg cfg s1).isSome = true ∧ (getMsg cfg s1).isSome = true) ∧
    (cfg.ndebug = false → peekMsg cfg s = none ∧ getMsg cfg s = none) := by
  refine ⟨fun h => ⟨?_, ?_⟩, fun h s1 => ⟨?_, ?_⟩, fun h => ⟨?_, ?_⟩⟩
  · exact ⟨_, peekMsg_of_ndebug cfg s h, hnull, by simp [hgot]⟩
  · refine ⟨_, peekMsg_of_ndebug cfg _ h, hnull, ?_⟩
    simp [hgot, resolved_topic_name]
  · simp [peekMsg, h]
  · simp [getMsg, peekMsg, h]
  · simp [peekMsg, h, hgot]
  · simp [getMsg, peekMsg, h, hgot]

theorem read_without_data_witness :
    ((∃ o, peekMsg cfg_release state_fresh = some o ∧ o.ret = none ∧
        o.log = [Event.ros_error_no_data (resolved_topic_name cfg_release state_fresh)]) ∧
      (∃ o, getMsg cfg_release state_fresh = some o ∧ o.ret = none ∧
        o.log = [Event.ros_error_no_data (resolved_topic_name cfg_release state_fresh)])) ∧
    (peekMsg cfg_consistent state_fresh = none ∧ getMsg cfg_consistent state_fresh = none) :=
  ⟨(read_without_data cfg_release state_fresh rfl rfl).1 rfl,
   (read_without_data cfg_consistent state_fresh rfl rfl).2.2 rfl⟩

/-! ## Delivery: the two acceptance policies -/

/-- C4: under the time-consistent policy, on a state with `m_got_data` set, a
delivered message whose `header.stamp` is strictly below that of
`m_latest_message`, arriving at a time not below `m_last_msg_received`, is
skipped: `data_callback` returns with the state unchanged in every field (the timer
included), only the warning is logged, the message callback is not called, and a
following `getMsg()` returns the earlier message. -/
theorem data_callback_rejects_older (cfg : Config) (msg latest : Msg) (now : Time) (s : State)
    (hpol : cfg.time_consistent = true) (hgot : s.m_got_data = true)
    (hlatest : s.m_latest_message = some latest) (hold : msg.stamp < latest.stamp)
    (hnow : s.m_last_msg_received ≤ now) :
    ∃ o, data_callback cfg msg now s = some o ∧ o.state = s ∧
      o.log = [Event.ros_warn_older (resolved_topic_name cfg s)] ∧
      o.log.filter Event.isMessageCallback = [] ∧
      ∃ o1, getMsg cfg o.state = some o1 ∧ o1.ret = some latest := by
  have hrej : rejects cfg msg now s = true := by
    simp [rejects, hpol, message_valid, hgot, check_time_consistent, hlatest,
      check_time_reset, hold, hnow]
  refine ⟨_, data_callback_of_rejects cfg msg now s hrej, rfl, rfl, ?_, ?_⟩
  · simp [Event.isMessageCallback]
  · exact ⟨_, getMsg_some_of_got cfg s hgot, hlatest⟩

theorem data_callback_rejects_older_witness :
    ∃ o, data_callback cfg_consuming msg2 20 state_one = some o ∧ o.state = state_one ∧
      o.log = [Event.ros_warn_older (resolved_topic_name cfg_consuming state_one)] ∧
      o.log.filter Event.isMessageCallback = [] ∧
      ∃ o1, getMsg cfg_consuming o.state = some o1 ∧ o1.ret = some msg1 :=
  data_callback_rejects_older cfg_consuming msg2 msg1 20 state_one rfl rfl rfl
    (by decide) (by decide)

/-- C5, as stated, fails: on a handle configured with the `no_timeout` sentinel the
constructor creates no timer, so after a delivery accepted under the
time-consistent policy (here the first one) the timer is not armed. -/
theorem data_callback_untimed_not_armed :
    state_untimed.m_got_data = false ∧
    ∃ o, data_callback cfg_untimed msg1 10 state_untimed = some o ∧
      o.state.m_latest_message = some msg1 ∧
      o.state.m_timeout_check_timer.started = false ∧
      o.state.m_timeout_check_timer.next_expected = none := by
  refine ⟨rfl, _, data_callback_of_accepts cfg_untimed msg1 10 state_untimed (by decide),
    ?_, ?_, ?_⟩ <;> decide

/-- C5, amended: under the time-consistent policy, a message delivered at time `now`
to a state with `m_got_data` false, or whose `header.stamp` is not below that of
`m_latest_message`, is accepted: afterwards `m_latest_message` is the message,
`m_got_data` is set, `m_last_msg_received = now`, the timer was stopped and started
again at `now`, which arms it with the deadline `now + period` when the handle has
a timer (a finite timeout is configured, see `reachable_timer_valid`), and
`m_new_data` is set when no message callback is configured. -/
theorem data_callback_accepts_consistent (cfg : Config) (msg : Msg) (now : Time) (s : State)
    (hpol : cfg.time_consistent = true)
    (h : s.m_got_data = false ∨
         ∃ latest, s.m_latest_message = some latest ∧ latest.stamp ≤ msg.stamp) :
    ∃ o, data_callback cfg msg now s = some o ∧
      o.state.m_latest_message = some msg ∧ o.state.m_got_data = true ∧
      o.state.m_last_msg_received = now ∧
      o.state.m_timeout_check_timer = (s.m_timeout_check_timer.stop).start now ∧
      (s.m_timeout_check_timer.valid = true →
        o.state.m_timeout_check_timer.started = true ∧
        o.state.m_timeout_check_timer.next_expected =
          some (now + s.m_timeout_check_timer.period)) ∧
      (cfg.message_callback = none → o.state.m_new_data = true) := by
  have hacc : accepts cfg msg now s = true := by
    rcases h with h | ⟨latest, hl, hle⟩
    · simp [accepts, hpol, message_valid, h]
    · cases hg : s.m_got_data <;>
        simp [accepts, hpol, message_valid, hg, check_time_consistent, hl, hle]
  refine ⟨_, data_callback_of_accepts cfg msg now s hacc, ?_, ?_, ?_, ?_, ?_, ?_⟩
  · simp [data_callback_unchecked_state, process_new_message]
  · simp [data_callback_unchecked_state, process_new_message]
  · simp [data_callback_unchecked_state, process_new_message]
  · simp [data_callback_unchecked_state, process_new_message]
  · intro hv
    simpa [data_callback_unchecked_state, process_new_message] using
      Timer.started_stop_start s.m_timeout_check_timer now hv
  · intro hcb
    simp [data_callback_unchecked_state, marks_consumed, hcb]

theorem data_callback_accepts_consistent_witness :
    ∃ o, data_callback cfg_consistent msg3 20 state_one = some o ∧
      o.state.m_latest_message = some msg3 ∧ o.state.m_got_data = true ∧
      o.state.m_last_msg_received = 20 ∧
      o.state.m_timeout_check_timer = (state_one.m_timeout_check_timer.stop).start 20 ∧
      (state_one.m_timeout_check_timer.valid = true →
        o.state.m_timeout_check_timer.started = true ∧
        o.state.m_timeout_check_timer.next_expected =
          some (20 + state_one.m_timeout_check_timer.period)) ∧
      (cfg_consistent.message_callback = none → o.state.m_new_data = true) :=
  data_callback_accepts_consistent cfg_consistent msg3 20 state_one rfl
    (Or.inr ⟨msg1, rfl, by decide⟩)

/-- C6: under the time-consistent policy, on every state whose stored pointer is
non-null once data was received (an invariant of the handle, see
`reachable_wellFormed`), a message delivered at a time strictly below
`m_last_msg_received` is accepted whatever its `header.stamp`: the time-reset
warning is logged, afterwards `m_latest_message` is the message and
`m_last_msg_received = now`, `getMsg()` returns the message, and the validity check
of the next delivery compares against this message's `header.stamp`. -/
theorem data_callback_time_reset (cfg : Config) (msg : Msg) (now : Time) (s : State)
    (hpol : cfg.time_consistent = true)
    (hptr : s.m_got_data = true → s.m_latest_message.isSome = true)
    (hjump : now < s.m_last_msg_received) :
    ∃ o, data_callback cfg msg now s = some o ∧
      Event.ros_warn_time_reset s.m_last_msg_received now ∈ o.log ∧
      o.state.m_latest_message = some msg ∧ o.state.m_last_msg_received = now ∧
      (∃ o1, getMsg cfg o.state = some o1 ∧ o1.ret = some msg) ∧
      ∀ next : Msg, message_valid next o.state = some (decide (next.stamp ≥ msg.stamp)) := by
  obtain ⟨valid, hv⟩ := message_valid_of_ptr msg s hptr
  have hreset : check_time_reset now s = true := by simp [check_time_reset, hjump]
  have hacc : accepts cfg msg now s = true := by simp [accepts, hpol, hv, hreset]
  refine ⟨_, data_callback_of_accepts cfg msg now s hacc, ?_, ?_, ?_, ?_, ?_⟩
  · simp [hpol, hreset]
  · simp [data_callback_unchecked_state, process_new_message]
  · simp [data_callback_unchecked_state, process_new_message]
  · refine ⟨_, getMsg_some_of_got cfg _ ?_, ?_⟩ <;>
      simp [data_callback_unchecked_state, process_new_message]
  · intro next
    simp [message_valid, check_time_consistent, data_callback_unchecked_state,
      process_new_message]

theorem data_callback_time_reset_witness :
    ∃ o, data_callback cfg_consistent msg2 4 state_one = some o ∧
      Event.ros_warn_time_reset state_one.m_last_msg_received 4 ∈ o.log ∧
      o.state.m_latest_message = some msg2 ∧ o.state.m_last_msg_received = 4 ∧
      (∃ o1, getMsg cfg_consistent o.state = some o1 ∧ o1.ret = some msg2) ∧
      ∀ next : Msg, message_valid next o.state = some (decide (next.stamp ≥ msg2.stamp)) :=
  data_callback_time_reset cfg_consistent msg2 4 state_one rfl (fun _ => rfl) (by decide)

/-- C7: under the unordered policy every delivered message is accepted, whatever
its `header.stamp`: `data_callback` returns, and afterwards `m_latest_message` is
the message, `m_got_data` is set and `m_last_msg_received` is the arrival time. -/
theorem data_callback_unordered_accepts (cfg : Config) (msg : Msg) (now : Time) (s : State)
    (hpol : cfg.time_consistent = false) :
    ∃ o, data_callback cfg msg now s = some o ∧
      o.state.m_latest_message = some msg ∧ o.state.m_got_data = true ∧
      o.state.m_last_msg_received = now := by
  refine ⟨data_callback_impl_false cfg msg now s, by simp [data_callback, hpol], ?_, ?_, ?_⟩ <;>
    simp [data_callback_impl_false, data_callback_unchecked_state, process_new_message]

theorem data_callback_unordered_accepts_witness :
    ∃ o, data_callback cfg_unordered msg2 20 state_one = some o ∧
      o.state.m_latest_message = some msg2 ∧ o.state.m_got_data = true ∧
      o.state.m_last_msg_received = 20 :=
  data_callback_unordered_accepts cfg_unordered msg2 20 state_one rfl

/-- C8: on a handle with a message callback, every accepted delivery calls the
callback exactly once, on a fresh wrapper around the delivered message and the
topic name; afterwards `m_new_data` is false if the callback left the wrapper
marked consumed and true if it did not, and in both cases `m_got_data` is set and
`m_latest_message` is the delivered message. -/
theorem accepted_delivery_calls_callback (cfg : Config) (msg : Msg) (now : Time) (s : State)
    (cb : MessageWrapper → MessageWrapper) (hcb : cfg.message_callback = some cb)
    (hacc : accepts cfg msg now s = true) :
    ∃ o, data_callback cfg msg now s = some o ∧
      o.log.filter Event.isMessageCallback =
        [Event.message_callback (MessageWrapper.create (some msg) cfg.topic_name)] ∧
      o.state.m_new_data = !(cb (MessageWrapper.create (some msg) cfg.topic_name)).usedMsg ∧
      o.state.m_got_data = true ∧ o.state.m_latest_message = some msg := by
  refine ⟨_, data_callback_of_accepts cfg msg now s hacc, ?_, ?_, ?_, ?_⟩
  · have hlog : (data_callback_unchecked cfg msg now s).log =
        [Event.timer_stop, Event.timer_start,
         Event.message_callback (MessageWrapper.create (some msg) cfg.topic_name)] := by
      simp [data_callback_unchecked, hcb]
    rw [hlog]
    split <;> simp [Event.isMessageCallback]
  · simp [data_callback_unchecked_state, marks_consumed, hcb]
  · simp [data_callback_unchecked_state, process_new_message]
  · simp [data_callback_unchecked_state, process_new_message]

theorem accepted_delivery_calls_callback_witness :
    (∃ o, data_callback cfg_consuming msg3 20 state_one = some o ∧
      o.log.filter Event.isMessageCallback =
        [Event.message_callback (MessageWrapper.create (some msg3) cfg_consuming.topic_name)] ∧
      o.state.m_new_data =
        !(MessageWrapper.markConsumed
            (MessageWrapper.create (some msg3) cfg_consuming.topic_name)).usedMsg ∧
      o.state.m_got_data = true ∧ o.state.m_latest_message = some msg3) ∧
    (∃ o, data_callback cfg_looking msg3 20 state_one = some o ∧
      o.log.filter Event.isMessageCallback =
        [Event.message_callback (MessageWrapper.create (some msg3) cfg_looking.topic_name)] ∧
      o.state.m_new_data = !(MessageWrapper.create (some msg3) cfg_looking.topic_name).usedMsg ∧
      o.state.m_got_data = true ∧ o.state.m_latest_message = some msg3) :=
  ⟨accepted_delivery_calls_callback cfg_consuming msg3 20 state_one
      MessageWrapper.markConsumed rfl (by decide),
   accepted_delivery_calls_callback cfg_looking msg3 20 state_one (fun wrp => wrp) rfl
      (by decide)⟩

/-! ## The flags across all operations -/

/-- C9: on a state with `m_new_data` set, whenever an operation returns,
`m_new_data` is false afterwards exactly when the operation is `getMsg()` or an
accepted delivery whose message callback leaves the wrapper marked consumed; and
`peekMsg()`, the flag accessors, `lastMsgTime()`, `topicName()`, `start()`,
`stop()`, a timer expiry and a rejected delivery all return and leave `m_new_data`
set (`m_got_data` is set along with `m_new_data` in every state of a handle, see
`reachable_wellFormed`). -/
theorem new_data_cleared_only_by_take_or_consumed (cfg : Config) (op : Op) (s : State)
    (hnew : s.m_new_data = true) :
    (∀ s1 log, step cfg op s = some (s1, log) →
      (s1.m_new_data = false ↔
        op = Op.getMsg ∨
        ∃ msg now, op = Op.data_callback msg now ∧ accepts cfg msg now s = true ∧
          marks_consumed cfg msg = true)) ∧
    (s.m_got_data = true →
      (op.quiet = true ∨ ∃ msg now, op = Op.data_callback msg now ∧ rejects cfg msg now s = true) →
      ∃ s1 log, step cfg op s = some (s1, log) ∧ s1.m_new_data = true) := by
  have key : ∀ s1 log, step cfg op s = some (s1, log) →
      (s1.m_new_data = false ↔
        op = Op.getMsg ∨
        ∃ msg now, op = Op.data_callback msg now ∧ accepts cfg msg now s = true ∧
          marks_consumed cfg msg = true) := by
    intro s1 log hstep
    obtain ⟨-, hn, -⟩ := step_flags cfg op s s1 log hstep
    rw [← Bool.not_eq_true, hn]
    constructor
    · intro hnot
      by_cases hop : op = Op.getMsg
      · exact Or.inl hop
      · by_cases hacc : ∃ msg now, op = Op.data_callback msg now ∧ accepts cfg msg now s = true
        · obtain ⟨msg, now, hmsg, ha⟩ := hacc
          cases hm : marks_consumed cfg msg
          · exact absurd (Or.inl ⟨msg, now, hmsg, ha, hm⟩) hnot
          · exact Or.inr ⟨msg, now, hmsg, ha, hm⟩
        · exact absurd (Or.inr ⟨hnew, hop, hacc⟩) hnot
    · rintro (hop | ⟨msg, now, hmsg, ha, hm⟩)
      · rintro (⟨m, n, hmn, -, -⟩ | ⟨-, hne, -⟩)
        · rw [hop] at hmn
          cases hmn
        · exact hne hop
      · rintro (⟨m, n, hmn, -, hm1⟩ | ⟨-, -, hna⟩)
        · rw [hmsg] at hmn
          cases hmn
          rw [hm] at hm1
          cases hm1
        · exact hna ⟨msg, now, hmsg, ha⟩
  refine ⟨key, fun hgot hop => ?_⟩
  have hret : ∃ s1 log, step cfg op s = some (s1, log) := by
    rcases hop with hq | ⟨msg, now, hmsg, hrej⟩
    · cases op with
      | getMsg => simp [Op.quiet] at hq
      | data_callback msg now => simp [Op.quiet] at hq
      | peekMsg => exact ⟨s, [], by simp [step, peekMsg_of_got cfg s hgot]⟩
      | hasMsg => exact ⟨_, _, rfl⟩
      | newMsg => exact ⟨_, _, rfl⟩
      | usedMsg => exact ⟨_, _, rfl⟩
      | lastMsgTime => exact ⟨_, _, rfl⟩
      | topicName => exact ⟨_, _, rfl⟩
      | start now => exact ⟨_, _, rfl⟩
      | stop => exact ⟨_, _, rfl⟩
      | check_timeout now n_pubs => exact ⟨_, _, rfl⟩
    · exact ⟨s, [Event.ros_warn_older (resolved_topic_name cfg s)],
        by simp [hmsg, step, data_callback_of_rejects cfg msg now s hrej]⟩
  obtain ⟨s1, log, hstep⟩ := hret
  refine ⟨s1, log, hstep, ?_⟩
  cases h1 : s1.m_new_data
  · exfalso
    rcases (key s1 log hstep).mp h1 with hget | ⟨msg, now, hmsg, ha, -⟩
    · rcases hop with hq | ⟨m, n, hmn, -⟩
      · simp [hget, Op.quiet] at hq
      · rw [hget] at hmn
        cases hmn
    · rcases hop with hq | ⟨m, n, hmn, hrej⟩
      · simp [hmsg, Op.quiet] at hq
      · rw [hmsg] at hmn
        cases hmn
        have hpol : cfg.time_consistent = true := by
          cases hp : cfg.time_consistent
          · simp [rejects, hp] at hrej
          · rfl
        simp only [accepts, rejects, hpol, if_true] at ha hrej
        cases hv : message_valid msg s with
        | none => simp [hv] at ha
        | some valid =>
          simp only [hv] at ha hrej
          rw [ha] at hrej
          cases hrej
  · rfl

theorem new_data_cleared_only_by_take_or_consumed_witness :
    (state_one.m_new_data = true) ∧
    (∃ s1 log, step cfg_consuming (Op.check_timeout 15 1) state_one = some (s1, log) ∧
      s1.m_new_data = true) ∧
    (∃ s1 log, step cfg_consuming (Op.data_callback msg2 20) state_one = some (s1, log) ∧
      s1.m_new_data = true) :=
  ⟨rfl,
   (new_data_cleared_only_by_take_or_consumed cfg_consuming (Op.check_timeout 15 1)
      state_one rfl).2 rfl (Or.inl rfl),
   (new_data_cleared_only_by_take_or_consumed cfg_consuming (Op.data_callback msg2 20)
      state_one rfl).2 rfl (Or.inr ⟨msg2, 20, rfl, by decide⟩)⟩

/-- C10: `m_got_data` is false in a freshly constructed handle; on a state with
`m_got_data` set, every operation that returns leaves it set, and every operation
does return when the stored pointer is non-null (which it is in every state of a
handle, see `reachable_wellFormed`); on a state with `m_got_data` false, every
operation other than an accepted delivery leaves it false. -/
theorem got_data_monotonic (cfg : Config) (op : Op) (s : State) (now0 : Time) :
    (construct cfg now0).state.m_got_data = false ∧
    (s.m_got_data = true →
      (∀ s1 log, step cfg op s = some (s1, log) → s1.m_got_data = true) ∧
      (s.m_latest_message.isSome = true →
        ∃ s1 log, step cfg op s = some (s1, log) ∧ s1.m_got_data = true)) ∧
    (s.m_got_data = false →
      (¬ ∃ msg now, op = Op.data_callback msg now ∧ accepts cfg msg now s = true) →
      ∀ s1 log, step cfg op s = some (s1, log) → s1.m_got_data = false) := by
  refine ⟨rfl, fun hgot => ⟨fun s1 log hstep => ?_, fun hptr => ?_⟩,
    fun hno hna s1 log hstep => ?_⟩
  · exact (step_flags cfg op s s1 log hstep).1.mpr (Or.inl hgot)
  · obtain ⟨s1, log, hstep⟩ := step_returns cfg op s hgot hptr
    exact ⟨s1, log, hstep, (step_flags cfg op s s1 log hstep).1.mpr (Or.inl hgot)⟩
  · cases h1 : s1.m_got_data
    · rfl
    · rcases (step_flags cfg op s s1 log hstep).1.mp h1 with hg | hacc
      · rw [hno] at hg
        cases hg
      · exact absurd hacc hna

theorem got_data_monotonic_witness :
    (construct cfg_consistent 0).state.m_got_data = false ∧
    (∃ s1 log, step cfg_consistent (Op.data_callback msg2 20) state_one = some (s1, log) ∧
      s1.m_got_data = true) ∧
    (∀ s1 log, step cfg_release Op.getMsg state_fresh = some (s1, log) →
      s1.m_got_data = false) :=
  ⟨(got_data_monotonic cfg_consistent Op.stop state_fresh 0).1,
   ((got_data_monotonic cfg_consistent (Op.data_callback msg2 20) state_one 0).2.1 rfl).2 rfl,
   (got_data_monotonic cfg_release Op.getMsg state_fresh 0).2.2 rfl
      (by rintro ⟨msg, now, hop, -⟩; cases hop)⟩

/-! ## Lemmas on sequences of operations -/

/-- The successor state of an operation that returns, by cases. -/
theorem step_state (cfg : Config) (op : Op) (s s1 : State) (log : List Event)
    (h : step cfg op s = some (s1, log)) :
    s1 = s ∨ s1 = { s with m_new_data := false, m_used_data := true } ∨
    (∃ msg now, s1 = (data_callback_unchecked cfg msg now s).state) ∨
    (∃ now, s1 = (start cfg now s).state) ∨ s1 = (stop s).state ∨
    (∃ now n_pubs, s1 = (check_timeout cfg now n_pubs s).state) := by
  cases op with
  | getMsg =>
    simp only [step, Option.map_eq_some', Prod.mk.injEq] at h
    obtain ⟨o, ho, hs, -⟩ := h
    obtain ⟨hst, -⟩ := peekMsg_state cfg _ o ho
    exact Or.inr (Or.inl (by rw [← hs, hst]))
  | peekMsg =>
    simp only [step, Option.map_eq_some', Prod.mk.injEq] at h
    obtain ⟨o, ho, hs, -⟩ := h
    obtain ⟨hst, -⟩ := peekMsg_state cfg _ o ho
    exact Or.inl (by rw [← hs, hst])
  | data_callback msg now =>
    simp only [step, Option.map_eq_some', Prod.mk.injEq] at h
    obtain ⟨o, ho, hs, -⟩ := h
    rcases data_callback_accepts_or_rejects cfg msg now s o ho with hacc | hrej
    · rw [data_callback_of_accepts cfg msg now s hacc] at ho
      simp only [Option.some.injEq] at ho
      exact Or.inr (Or.inr (Or.inl ⟨msg, now, by rw [← hs, ← ho]⟩))
    · rw [data_callback_of_rejects cfg msg now s hrej] at ho
      simp only [Option.some.injEq] at ho
      exact Or.inl (by rw [← hs, ← ho])
  | hasMsg => simp only [step, Option.some.injEq, Prod.mk.injEq] at h; exact Or.inl h.1.symm
  | newMsg => simp only [step, Option.some.injEq, Prod.mk.injEq] at h; exact Or.inl h.1.symm
  | usedMsg => simp only [step, Option.some.injEq, Prod.mk.injEq] at h; exact Or.inl h.1.symm
  | lastMsgTime => simp only [step, Option.some.injEq, Prod.mk.injEq] at h; exact Or.inl h.1.symm
  | topicName => simp only [step, Option.some.injEq, Prod.mk.injEq] at h; exact Or.inl h.1.symm
  | start now =>
    simp only [step, Option.some.injEq, Prod.mk.injEq] at h
    exact Or.inr (Or.inr (Or.inr (Or.inl ⟨now, h.1.symm⟩)))
  | stop =>
    simp only [step, Option.some.injEq, Prod.mk.injEq] at h
    exact Or.inr (Or.inr (Or.inr (Or.inr (Or.inl h.1.symm))))
  | check_timeout now n_pubs =>
    simp only [step, Option.some.injEq, Prod.mk.injEq] at h
    exact Or.inr (Or.inr (Or.inr (Or.inr (Or.inr ⟨now, n_pubs, h.1.symm⟩))))

theorem Timer.start_idle (t : Timer) (now : Time) (h : t.valid = false) : t.start now = t := by
  simp [Timer.start, h]

theorem Timer.stop_idle (t : Timer) (h : t.valid = false) : t.stop = t := by
  simp [Timer.stop, h]

/-- Every operation that returns keeps the count of registrations in step with
`m_sub`. -/
theorem step_registered (cfg : Config) (op : Op) (s s1 : State) (log : List Event)
    (hreg : Registered s) (h : step cfg op s = some (s1, log)) : Registered s1 := by
  unfold Registered at hreg ⊢
  rcases step_state cfg op s s1 log h with h1 | h1 | ⟨msg, now, h1⟩ | ⟨now, h1⟩ | h1 |
    ⟨now, n_pubs, h1⟩
  · rw [h1]; exact hreg
  · rw [h1]; exact hreg
  · rw [h1]; simpa [data_callback_unchecked_state, process_new_message] using hreg
  · rw [h1]
    cases ha : s.m_sub.active <;> simp [start, ha] at hreg ⊢
    · omega
    · omega
  · rw [h1]
    cases ha : s.m_sub.active <;> simp [stop, Subscriber.shutdown, ha] at hreg ⊢
    · omega
    · omega
  · rw [h1]; simpa [check_timeout] using hreg

/-- Every operation that returns leaves a handle without timer unarmed. -/
theorem step_timerIdle (cfg : Config) (op : Op) (s s1 : State) (log : List Event)
    (hidle : TimerIdle s) (h : step cfg op s = some (s1, log)) : TimerIdle s1 := by
  unfold TimerIdle at hidle ⊢
  intro hv
  have hv0 : s.m_timeout_check_timer.valid = false := by
    rw [← (step_timer_shape cfg op s s1 log h).1]; exact hv
  have hs := hidle hv0
  rcases step_state cfg op s s1 log h with h1 | h1 | ⟨msg, now, h1⟩ | ⟨now, h1⟩ | h1 |
    ⟨now, n_pubs, h1⟩
  · rw [h1]; exact hs
  · rw [h1]; exact hs
  · rw [h1]
    simpa [data_callback_unchecked_state, process_new_message, Timer.stop_idle _ hv0,
      Timer.start_idle _ _ hv0] using hs
  · rw [h1]; simpa [start, Timer.start_idle _ _ hv0] using hs
  · rw [h1]; simpa [stop, Timer.stop_idle _ hv0] using hs
  · rw [h1]
    simpa [check_timeout, Timer.stop_idle _ hv0, Timer.start_idle _ _ hv0] using hs

/-- Only a timer expiry calls the timeout callback. -/
theorem step_log_timeout (cfg : Config) (op : Op) (s s1 : State) (log : List Event)
    (h : step cfg op s = some (s1, log)) (hop : ∀ now n_pubs, op ≠ Op.check_timeout now n_pubs) :
    log.filter Event.isTimeoutCallback = [] := by
  have hunchecked : ∀ msg now,
      (data_callback_unchecked cfg msg now s).log.filter Event.isTimeoutCallback = [] := by
    intro msg now
    unfold data_callback_unchecked
    cases cfg.message_callback <;> simp [Event.isTimeoutCallback]
  cases op with
  | getMsg =>
    simp only [step, Option.map_eq_some', Prod.mk.injEq] at h
    obtain ⟨o, ho, -, hl⟩ := h
    unfold getMsg peekMsg at ho
    split at ho
    · simp at ho
    · simp only [Option.some.injEq] at ho
      rw [← hl, ← ho]
      split <;> simp [Event.isTimeoutCallback]
  | peekMsg =>
    simp only [step, Option.map_eq_some', Prod.mk.injEq] at h
    obtain ⟨o, ho, -, hl⟩ := h
    unfold peekMsg at ho
    split at ho
    · simp at ho
    · simp only [Option.some.injEq] at ho
      rw [← hl, ← ho]
      split <;> simp [Event.isTimeoutCallback]
  | data_callback msg now =>
    simp only [step, Option.map_eq_some', Prod.mk.injEq] at h
    obtain ⟨o, ho, -, hl⟩ := h
    rcases data_callback_accepts_or_rejects cfg msg now s o ho with hacc | hrej
    · rw [data_callback_of_accepts cfg msg now s hacc] at ho
      simp only [Option.some.injEq] at ho
      rw [← hl, ← ho]
      simp only [List.filter_append, hunchecked, List.append_nil]
      split <;> simp [Event.isTimeoutCallback]
    · rw [data_callback_of_rejects cfg msg now s hrej] at ho
      simp only [Option.some.injEq] at ho
      rw [← hl, ← ho]
      simp [Event.isTimeoutCallback]
  | hasMsg => simp only [step, Option.some.injEq, Prod.mk.injEq] at h; rw [← h.2]; rfl
  | newMsg => simp only [step, Option.some.injEq, Prod.mk.injEq] at h; rw [← h.2]; rfl
  | usedMsg => simp only [step, Option.some.injEq, Prod.mk.injEq] at h; rw [← h.2]; rfl
  | lastMsgTime => simp only [step, Option.some.injEq, Prod.mk.injEq] at h; rw [← h.2]; rfl
  | topicName => simp only [step, Option.some.injEq, Prod.mk.injEq] at h; rw [← h.2]; rfl
  | start now => simp only [step, Option.some.injEq, Prod.mk.injEq] at h; rw [← h.2]; rfl
  | stop => simp only [step, Option.some.injEq, Prod.mk.injEq] at h; rw [← h.2]; rfl
  | check_timeout now n_pubs => exact absurd rfl (hop now n_pubs)

/-- The state a handle is constructed in satisfies every invariant. -/
theorem construct_invariants (cfg : Config) (now : Time) :
    WellFormed (construct cfg now).state ∧ Registered (construct cfg now).state ∧
    TimerIdle (construct cfg now).state ∧
    (construct cfg now).state.m_timeout_check_timer.valid =
      (cfg.no_message_timeout != no_timeout) := by
  refine ⟨by simp [WellFormed, construct], by simp [Registered, construct, Subscriber.empty],
    ?_, ?_⟩
  · unfold TimerIdle
    cases hb : (cfg.no_message_timeout != no_timeout) <;>
      simp [construct, hb, Timer.createTimer, Timer.empty]
  · cases hb : (cfg.no_message_timeout != no_timeout) <;>
      simp [construct, hb, Timer.createTimer, Timer.empty]

/-- Every invariant of the handle survives any sequence of operations. -/
theorem run_invariants (cfg : Config) (ops : List Op) (s s1 : State)
    (h : run cfg ops s = some s1) :
    (WellFormed s → WellFormed s1) ∧ (Registered s → Registered s1) ∧
    (TimerIdle s → TimerIdle s1) ∧
    s1.m_timeout_check_timer.valid = s.m_timeout_check_timer.valid := by
  induction ops generalizing s with
  | nil =>
    simp only [run, Option.some.injEq] at h
    subst h
    exact ⟨id, id, id, rfl⟩
  | cons op ops ih =>
    simp only [run] at h
    cases hstep : step cfg op s with
    | none => simp [hstep] at h
    | some p =>
      obtain ⟨s2, log⟩ := p
      simp only [hstep] at h
      obtain ⟨h1, h2, h3, h4⟩ := ih s2 h
      exact ⟨fun hw => h1 (step_wellFormed cfg op s s2 log hw hstep),
        fun hr => h2 (step_registered cfg op s s2 log hr hstep),
        fun hi => h3 (step_timerIdle cfg op s s2 log hi hstep),
        by rw [h4, (step_timer_shape cfg op s s2 log hstep).1]⟩

/-- A sequence the environment can issue is in particular a sequence of
operations. -/
theorem run_of_exec (cfg : Config) (ops : List Op) (s s1 : State) (log : List Event)
    (h : exec cfg ops s = some (s1, log)) : run cfg ops s = some s1 := by
  induction ops generalizing s log with
  | nil =>
    simp only [exec, Option.some.injEq, Prod.mk.injEq] at h
    simp [run, h.1]
  | cons op ops ih =>
    simp only [exec] at h
    split at h
    · cases hstep : step cfg op s with
      | none => simp [hstep] at h
      | some p =>
        obtain ⟨s2, log1⟩ := p
        simp only [hstep] at h
        cases hrest : exec cfg ops s2 with
        | none => simp [hrest] at h
        | some q =>
          obtain ⟨s3, log2⟩ := q
          simp only [hrest, Option.some.injEq, Prod.mk.injEq] at h
          simp only [run, hstep]
          rw [← h.1]
          rw [← h.1] at ih
          exact ih s2 log2 hrest
    · simp at h

/-- After `check_timeout` at time `now` a handle with a timer is armed, the deadline
one period after `now`; the time of the last message is untouched. -/
theorem check_timeout_timer (cfg : Config) (now : Time) (n_pubs : Nat) (s : State)
    (hvalid : s.m_timeout_check_timer.valid = true) :
    (check_timeout cfg now n_pubs s).state.m_timeout_check_timer.valid = true ∧
    (check_timeout cfg now n_pubs s).state.m_timeout_check_timer.period =
      s.m_timeout_check_timer.period ∧
    (check_timeout cfg now n_pubs s).state.m_timeout_check_timer.started = true ∧
    (check_timeout cfg now n_pubs s).state.m_timeout_check_timer.next_expected =
      some (now + s.m_timeout_check_timer.period) := by
  have h := Timer.started_stop_start s.m_timeout_check_timer now hvalid
  cases hs : s.m_timeout_check_timer.started <;>
    simp [check_timeout, Timer.stop, Timer.start, hvalid, hs]

theorem range_shift (k t D : Nat) :
    t :: (List.range k).map (fun i => t + D + i * D) =
      (List.range (k + 1)).map fun i => t + i * D := by
  rw [List.range_succ_eq_map]
  simp only [List.map_cons, List.map_map, Nat.zero_mul, Nat.add_zero, List.cons.injEq, true_and]
  apply List.map_congr_left
  intro i _
  simp only [Function.comp, Nat.succ_eq_add_one]
  ring

/-- From a state whose timer is pending with deadline `t`, the first `k` expiries
happen at `t`, `t + D`, `t + 2 D`, ... for the period `D` of the timer, and leave the
deadline `t + k D`. -/
theorem expiries_from (cfg : Config) (n_pubs k : Nat) (t : Time) (s : State)
    (hvalid : s.m_timeout_check_timer.valid = true)
    (hnext : s.m_timeout_check_timer.next_expected = some t) :
    ∃ sk, expiries cfg n_pubs k s =
        some ((List.range k).map fun i => t + i * s.m_timeout_check_timer.period, sk) ∧
      sk.m_timeout_check_timer.valid = true ∧
      sk.m_timeout_check_timer.period = s.m_timeout_check_timer.period ∧
      sk.m_timeout_check_timer.next_expected = some (t + k * s.m_timeout_check_timer.period) := by
  induction k generalizing t s with
  | zero => exact ⟨s, by simp [expiries], hvalid, rfl, by simpa using hnext⟩
  | succ k ih =>
    obtain ⟨hv1, hp1, -, hn1⟩ := check_timeout_timer cfg t n_pubs s hvalid
    obtain ⟨sk, hk, hvk, hpk, hnk⟩ :=
      ih (t + s.m_timeout_check_timer.period) (check_timeout cfg t n_pubs s).state hv1 hn1
    refine ⟨sk, ?_, hvk, by rw [hpk, hp1], ?_⟩
    · simp only [expiries, expire, hnext, hk, hp1]
      rw [range_shift]
    · rw [hnk, hp1]
      simp only [Option.some.injEq]
      ring

/-- The period of the timer of a handle is the configured timeout. -/
theorem run_timer_period (cfg : Config) (ops : List Op) (now : Time) (s : State)
    (h : run cfg ops (construct cfg now).state = some s)
    (hvalid : s.m_timeout_check_timer.valid = true) :
    s.m_timeout_check_timer.period = cfg.no_message_timeout := by
  have hshape : ∀ (ops : List Op) (s0 s1 : State), run cfg ops s0 = some s1 →
      s1.m_timeout_check_timer.valid = s0.m_timeout_check_timer.valid ∧
      s1.m_timeout_check_timer.period = s0.m_timeout_check_timer.period := by
    intro ops
    induction ops with
    | nil =>
      intro s0 s1 h0
      simp only [run, Option.some.injEq] at h0
      subst h0
      exact ⟨rfl, rfl⟩
    | cons op ops ih =>
      intro s0 s1 h0
      simp only [run] at h0
      cases hstep : step cfg op s0 with
      | none => simp [hstep] at h0
      | some p =>
        obtain ⟨s2, log⟩ := p
        simp only [hstep] at h0
        obtain ⟨h1, h2⟩ := ih s2 s1 h0
        obtain ⟨h3, h4⟩ := step_timer_shape cfg op s0 s2 log hstep
        exact ⟨by rw [h1, h3], by rw [h2, h4]⟩
  obtain ⟨hv, hp⟩ := hshape ops _ s h
  rw [hp]
  rw [hv] at hvalid
  cases hb : (cfg.no_message_timeout != no_timeout) <;>
    simp [construct, hb, Timer.createTimer, Timer.empty] at hvalid ⊢

/-- On a handle without timer, no sequence the environment can issue calls the
timeout callback. -/
theorem exec_log_untimed (cfg : Config) (ops : List Op) (s s1 : State) (log : List Event)
    (hvalid : s.m_timeout_check_timer.valid = false) (hidle : TimerIdle s)
    (h : exec cfg ops s = some (s1, log)) :
    log.filter Event.isTimeoutCallback = [] := by
  induction ops generalizing s log with
  | nil =>
    simp only [exec, Option.some.injEq, Prod.mk.injEq] at h
    rw [← h.2]
    rfl
  | cons op ops ih =>
    simp only [exec] at h
    split at h
    · rename_i hen
      cases hstep : step cfg op s with
      | none => simp [hstep] at h
      | some p =>
        obtain ⟨s2, log1⟩ := p
        simp only [hstep] at h
        cases hrest : exec cfg ops s2 with
        | none => simp [hrest] at h
        | some q =>
          obtain ⟨s3, log2⟩ := q
          simp only [hrest, Option.some.injEq, Prod.mk.injEq] at h
          have hop : ∀ now n_pubs, op ≠ Op.check_timeout now n_pubs := by
            intro now n_pubs heq
            rw [heq] at hen
            simp [Op.enabled, (hidle hvalid).2] at hen
          have hv2 : s2.m_timeout_check_timer.valid = false := by
            rw [(step_timer_shape cfg op s s2 log1 hstep).1]; exact hvalid
          have h2 := ih s2 log2 hv2 (step_timerIdle cfg op s s2 log1 hidle hstep)
            (by rw [hrest, h.1])
          rw [← h.2, List.filter_append, step_log_timeout cfg op s s2 log1 hstep hop, h2]
          rfl
    · simp at h

/-! ## The timeout supervisor -/

/-- C11: on a handle with a timer of period `D`, after a message is accepted at time
`T0` and while nothing else happens to the handle, the first `k` expiries of the
timer run `check_timeout` at `T0 + D`, `T0 + 2 D`, ..., `T0 + k D`, every run of
`check_timeout` calls the timeout callback once, and the deadline after the `k`-th
is `T0 + (k + 1) D`; once a further message is accepted at time `T1`, the next
expiry is at `T1 + D`. -/
theorem timeout_rearming (cfg : Config) (msg msg_next : Msg) (T0 T1 : Time) (n_pubs k : Nat)
    (s : State) (hvalid : s.m_timeout_check_timer.valid = true)
    (hacc : accepts cfg msg T0 s = true) :
    ∃ o sk, data_callback cfg msg T0 s = some o ∧
      expiries cfg n_pubs k o.state =
        some ((List.range k).map fun i => T0 + (i + 1) * s.m_timeout_check_timer.period, sk) ∧
      sk.m_timeout_check_timer.next_expected =
        some (T0 + (k + 1) * s.m_timeout_check_timer.period) ∧
      (∀ now n s1,
        ((check_timeout cfg now n s1).log.filter Event.isTimeoutCallback).length = 1) ∧
      (accepts cfg msg_next T1 sk = true →
        ∃ o1, data_callback cfg msg_next T1 sk = some o1 ∧
          (expire cfg n_pubs o1.state).map Prod.fst =
            some (T1 + s.m_timeout_check_timer.period)) := by
  have hperiod : ∀ (m : Msg) (t : Time) (s1 : State),
      s1.m_timeout_check_timer.valid = true →
      (data_callback_unchecked cfg m t s1).state.m_timeout_check_timer.valid = true ∧
      (data_callback_unchecked cfg m t s1).state.m_timeout_check_timer.period =
        s1.m_timeout_check_timer.period ∧
      (data_callback_unchecked cfg m t s1).state.m_timeout_check_timer.next_expected =
        some (t + s1.m_timeout_check_timer.period) := by
    intro m t s1 hv
    cases hs : s1.m_timeout_check_timer.started <;>
      simp [data_callback_unchecked_state, process_new_message, Timer.stop, Timer.start, hv, hs]
  obtain ⟨hv0, hp0, hn0⟩ := hperiod msg T0 s hvalid
  obtain ⟨sk, hk, hvk, hpk, hnk⟩ :=
    expiries_from cfg n_pubs k (T0 + s.m_timeout_check_timer.period)
      (data_callback_unchecked cfg msg T0 s).state hv0 hn0
  refine ⟨_, sk, data_callback_of_accepts cfg msg T0 s hacc, ?_, ?_, ?_, ?_⟩
  · rw [hk, hp0]
    simp only [Option.some.injEq, Prod.mk.injEq, and_true]
    apply List.map_congr_left
    intro i _
    ring
  · rw [hnk, hp0]
    simp only [Option.some.injEq]
    ring
  · intro now n s1
    unfold check_timeout
    cases cfg.timeout_callback <;> simp [Event.isTimeoutCallback]
  · intro hacc1
    obtain ⟨-, hp1, hn1⟩ := hperiod msg_next T1 sk hvk
    refine ⟨_, data_callback_of_accepts cfg msg_next T1 sk hacc1, ?_⟩
    simp [expire, hn1, hp1, hpk, hp0]

theorem timeout_rearming_witness :
    ∃ o sk, data_callback cfg_consistent msg1 10 state_started = some o ∧
      expiries cfg_consistent 1 3 o.state =
        some ((List.range 3).map fun i =>
          10 + (i + 1) * state_started.m_timeout_check_timer.period, sk) ∧
      sk.m_timeout_check_timer.next_expected =
        some (10 + (3 + 1) * state_started.m_timeout_check_timer.period) ∧
      (∀ now n s1,
        ((check_timeout cfg_consistent now n s1).log.filter Event.isTimeoutCallback).length
          = 1) ∧
      (accepts cfg_consistent msg3 40 sk = true →
        ∃ o1, data_callback cfg_consistent msg3 40 sk = some o1 ∧
          (expire cfg_consistent 1 o1.state).map Prod.fst =
            some (40 + state_started.m_timeout_check_timer.period)) :=
  timeout_rearming cfg_consistent msg1 msg3 10 40 1 3 state_started rfl (by decide)

/-- C12: on a handle configured with the `no_timeout` sentinel, after every sequence
of operations from construction the timer is not armed and no expiry is enabled;
and in every sequence the environment can issue (calls of the public methods,
deliveries to a live registration, expiries where one is due) the timeout callback
is never called. -/
theorem no_timeout_never_armed (cfg : Config) (ops : List Op) (now : Time) (s : State)
    (hcfg : cfg.no_message_timeout = no_timeout)
    (h : run cfg ops (construct cfg now).state = some s) :
    s.m_timeout_check_timer.started = false ∧
    s.m_timeout_check_timer.next_expected = none ∧
    (∀ t n_pubs, (Op.check_timeout t n_pubs).enabled s = false) ∧
    (∀ log, exec cfg ops (construct cfg now).state = some (s, log) →
      log.filter Event.isTimeoutCallback = []) := by
  obtain ⟨-, -, hidle0, hv0⟩ := construct_invariants cfg now
  have hv0f : (construct cfg now).state.m_timeout_check_timer.valid = false := by
    rw [hv0, hcfg]; rfl
  obtain ⟨-, -, hidle, hv⟩ := run_invariants cfg ops _ s h
  have hvf : s.m_timeout_check_timer.valid = false := by rw [hv, hv0f]
  obtain ⟨hst, hne⟩ := hidle hidle0 hvf
  refine ⟨hst, hne, ?_, fun log hlog => exec_log_untimed cfg ops _ s log hv0f hidle0 hlog⟩
  intro t n_pubs
  simp [Op.enabled, hne]

theorem no_timeout_never_armed_witness :
    exec cfg_untimed untimed_ops (construct cfg_untimed 0).state =
      some (state_untimed_final, untimed_log) ∧
    state_untimed_final.m_timeout_check_timer.started = false ∧
    state_untimed_final.m_timeout_check_timer.next_expected = none ∧
    (∀ t n_pubs, (Op.check_timeout t n_pubs).enabled state_untimed_final = false) ∧
    untimed_log.filter Event.isTimeoutCallback = [] :=
  ⟨by decide,
   (no_timeout_never_armed cfg_untimed untimed_ops 0 state_untimed_final rfl (by decide)).1,
   (no_timeout_never_armed cfg_untimed untimed_ops 0 state_untimed_final rfl (by decide)).2.1,
   (no_timeout_never_armed cfg_untimed untimed_ops 0 state_untimed_final rfl
     (by decide)).2.2.1,
   (no_timeout_never_armed cfg_untimed untimed_ops 0 state_untimed_final rfl
     (by decide)).2.2.2 untimed_log (by decide)⟩

/-! ## Starting and stopping -/

/-- C13, as stated, fails: on a handle configured with the `no_timeout` sentinel,
`start()` followed by `start()` leaves the handle as one `start()` does and with one
live registration, but with no armed timer, since the handle has none. -/
theorem start_twice_untimed_not_armed :
    (start cfg_untimed 5 (start cfg_untimed 0 (construct cfg_untimed 0).state).state).state =
      (start cfg_untimed 0 (construct cfg_untimed 0).state).state ∧
    (start cfg_untimed 5
      (start cfg_untimed 0 (construct cfg_untimed 0).state).state).state.m_nh.n_callbacks = 1 ∧
    (start cfg_untimed 5
      (start cfg_untimed 0
        (construct cfg_untimed 0).state).state).state.m_timeout_check_timer.started = false := by
  decide

/-- C13, amended: on every state in which the transport holds one registration
exactly while `m_sub` is live (an invariant of the handle, see `run_invariants`),
`start()` followed by `start()` leaves the handle in the state a single `start()`
leaves it in, with `m_sub` live, exactly one registration at the transport, and the
timer armed when the handle has one (a finite timeout is configured). -/
theorem start_idempotent (cfg : Config) (now1 now2 : Time) (s : State)
    (hreg : Registered s) :
    (start cfg now2 (start cfg now1 s).state).state = (start cfg now1 s).state ∧
    (start cfg now2 (start cfg now1 s).state).state.m_sub.active = true ∧
    (start cfg now2 (start cfg now1 s).state).state.m_nh.n_callbacks = 1 ∧
    (s.m_timeout_check_timer.valid = true →
      (start cfg now2 (start cfg now1 s).state).state.m_timeout_check_timer.started = true) := by
  have htimer : (s.m_timeout_check_timer.start now1).start now2 =
      s.m_timeout_check_timer.start now1 := by
    cases hv : s.m_timeout_check_timer.valid <;> cases hs : s.m_timeout_check_timer.started <;>
      simp [Timer.start, hv, hs]
  have hsame : (start cfg now2 (start cfg now1 s).state).state = (start cfg now1 s).state := by
    simp [start, htimer]
  unfold Registered at hreg
  refine ⟨hsame, ?_, ?_, ?_⟩
  · simp [start]
  · rw [hsame]
    cases ha : s.m_sub.active <;> simp [start, ha] at hreg ⊢ <;> omega
  · intro hv
    rw [hsame]
    cases hs : s.m_timeout_check_timer.started <;> simp [start, Timer.start, hv, hs]

theorem start_idempotent_witness :
    (start cfg_consistent 20 (start cfg_consistent 12 state_one).state).state =
      (start cfg_consistent 12 state_one).state ∧
    (start cfg_consistent 20 (start cfg_consistent 12 state_one).state).state.m_sub.active
      = true ∧
    (start cfg_consistent 20
      (start cfg_consistent 12 state_one).state).state.m_nh.n_callbacks = 1 ∧
    (state_one.m_timeout_check_timer.valid = true →
      (start cfg_consistent 20
        (start cfg_consistent 12 state_one).state).state.m_timeout_check_timer.started = true) :=
  start_idempotent cfg_consistent 12 20 state_one (by decide)

/-- C14: `stop()` followed by `start()` leaves `m_latest_message`, `m_got_data`,
`m_new_data`, `m_used_data` and `m_last_msg_received` as they were before `stop()`;
afterwards `m_sub` is live and, when the handle has a timer (a finite timeout is
configured), the timer is armed, with the deadline one period after the `start()`. -/
theorem stop_start_preserves (cfg : Config) (now : Time) (s : State) :
    (start cfg now (stop s).state).state.m_latest_message = s.m_latest_message ∧
    (start cfg now (stop s).state).state.m_got_data = s.m_got_data ∧
    (start cfg now (stop s).state).state.m_new_data = s.m_new_data ∧
    (start cfg now (stop s).state).state.m_used_data = s.m_used_data ∧
    (start cfg now (stop s).state).state.m_last_msg_received = s.m_last_msg_received ∧
    (start cfg now (stop s).state).state.m_sub.active = true ∧
    (s.m_timeout_check_timer.valid = true →
      (start cfg now (stop s).state).state.m_timeout_check_timer.started = true ∧
      (start cfg now (stop s).state).state.m_timeout_check_timer.next_expected =
        some (now + s.m_timeout_check_timer.period)) := by
  refine ⟨rfl, rfl, rfl, rfl, rfl, rfl, fun hv => ?_⟩
  simpa [start, stop] using Timer.started_stop_start s.m_timeout_check_timer now hv

theorem stop_start_preserves_witness :
    (start cfg_consistent 30 (stop state_one).state).state.m_latest_message = some msg1 ∧
    (start cfg_consistent 30 (stop state_one).state).state.m_new_data = true ∧
    (start cfg_consistent 30 (stop state_one).state).state.m_timeout_check_timer.started = true ∧
    (start cfg_consistent 30
      (stop state_one).state).state.m_timeout_check_timer.next_expected = some 35 :=
  ⟨(stop_start_preserves cfg_consistent 30 state_one).1,
   (stop_start_preserves cfg_consistent 30 state_one).2.2.1,
   ((stop_start_preserves cfg_consistent 30 state_one).2.2.2.2.2.2 rfl).1,
   ((stop_start_preserves cfg_consistent 30 state_one).2.2.2.2.2.2 rfl).2⟩

/-! ## The thread-safe handle -/

/-- What an override does: the method of the base class under the lock guard. -/
theorem lock_guard_eq {α : Type} (ts : ThreadsafeState) (body : State → Option (Out α)) :
    SubscribeHandler_threadsafe.lock_guard ts body =
      (body ts.impl).map fun o =>
        { ret := o.ret, state := { impl := o.state, m_mtx := ts.m_mtx }
          log := [TsEvent.mtx_lock, TsEvent.access o.log, TsEvent.mtx_unlock] } := by
  unfold SubscribeHandler_threadsafe.lock_guard
  cases hb : body ts.impl <;> simp [hb]

/-- What every method of the thread-safe handle does, in terms of the method of the
base class: the same return value, the same successor for the member variables of
the base class, the mutex as it was, and the base-class method run under the lock
guard for every override. -/
theorem threadsafe_call_eq (cfg : Config) (op : Op) (ts : ThreadsafeState) :
    SubscribeHandler_threadsafe.call cfg op ts =
      (call cfg op ts.impl).map fun o =>
        { ret := o.ret
          state := { impl := o.state, m_mtx := ts.m_mtx }
          log := if op.overridden then
                   [TsEvent.mtx_lock, TsEvent.access o.log, TsEvent.mtx_unlock]
                 else [TsEvent.access o.log] } := by
  cases op with
  | getMsg =>
    simp only [SubscribeHandler_threadsafe.call, SubscribeHandler_threadsafe.getMsg,
      lock_guard_eq, call, Op.overridden]
    cases getMsg cfg ts.impl <;> simp
  | peekMsg =>
    simp only [SubscribeHandler_threadsafe.call, SubscribeHandler_threadsafe.peekMsg,
      lock_guard_eq, call, Op.overridden]
    cases peekMsg cfg ts.impl <;> simp
  | data_callback msg now =>
    simp only [SubscribeHandler_threadsafe.call, SubscribeHandler_threadsafe.data_callback,
      lock_guard_eq, call, Op.overridden]
    cases data_callback cfg msg now ts.impl <;> simp
  | hasMsg =>
    simp [SubscribeHandler_threadsafe.call, SubscribeHandler_threadsafe.hasMsg,
      lock_guard_eq, call, Op.overridden]
  | newMsg =>
    simp [SubscribeHandler_threadsafe.call, SubscribeHandler_threadsafe.newMsg,
      lock_guard_eq, call, Op.overridden]
  | usedMsg =>
    simp [SubscribeHandler_threadsafe.call, SubscribeHandler_threadsafe.usedMsg,
      lock_guard_eq, call, Op.overridden]
  | lastMsgTime =>
    simp [SubscribeHandler_threadsafe.call, SubscribeHandler_threadsafe.lastMsgTime,
      lock_guard_eq, call, Op.overridden]
  | topicName =>
    simp [SubscribeHandler_threadsafe.call, SubscribeHandler_threadsafe.topicName,
      lock_guard_eq, call, Op.overridden]
  | start now =>
    simp [SubscribeHandler_threadsafe.call, SubscribeHandler_threadsafe.start,
      lock_guard_eq, call, Op.overridden]
  | stop =>
    simp [SubscribeHandler_threadsafe.call, SubscribeHandler_threadsafe.stop,
      lock_guard_eq, call, Op.overridden]
  | check_timeout now n_pubs =>
    simp [SubscribeHandler_threadsafe.call, SubscribeHandler_threadsafe.check_timeout,
      SubscribeHandler_threadsafe.inherited, call, Op.overridden]

/-- C15: for every state and every operation, the method of
`SubscribeHandler_threadsafe` returns exactly when the method of
`SubscribeHandler_impl` does on the same member variables, with the same return
value and the same successor for them, and it leaves the mutex, the only member the
class adds, as it found it. -/
theorem threadsafe_refines_impl (cfg : Config) (op : Op) (ts : ThreadsafeState) :
    ((SubscribeHandler_threadsafe.call cfg op ts).map fun o => (o.ret, o.state.impl)) =
      ((call cfg op ts.impl).map fun o => (o.ret, o.state)) ∧
    (∀ o, SubscribeHandler_threadsafe.call cfg op ts = some o → o.state.m_mtx = ts.m_mtx) ∧
    (∀ o, SubscribeHandler_threadsafe.call cfg op ts = some o →
      o.state = { impl := o.state.impl, m_mtx := ts.m_mtx }) := by
  rw [threadsafe_call_eq]
  refine ⟨?_, ?_, ?_⟩
  · cases call cfg op ts.impl <;> simp
  · intro o ho
    cases hc : call cfg op ts.impl with
    | none => simp [hc] at ho
    | some o1 =>
      simp only [hc, Option.map_some', Option.some.injEq] at ho
      rw [← ho]
  · intro o ho
    cases hc : call cfg op ts.impl with
    | none => simp [hc] at ho
    | some o1 =>
      simp only [hc, Option.map_some', Option.some.injEq] at ho
      rw [← ho]

theorem threadsafe_refines_impl_witness :
    ((SubscribeHandler_threadsafe.call cfg_consistent Op.getMsg ts_one).map
        fun o => (o.ret, o.state.impl)) =
      some (Ret.msg (some msg1), { state_one with m_new_data := false, m_used_data := true }) ∧
    (∀ o, SubscribeHandler_threadsafe.call cfg_consistent Op.getMsg ts_one = some o →
      o.state.m_mtx = ts_one.m_mtx) :=
  ⟨by rw [(threadsafe_refines_impl cfg_consistent Op.getMsg ts_one).1]; decide,
   (threadsafe_refines_impl cfg_consistent Op.getMsg ts_one).2.1⟩

/-- C16, as stated, fails: in the thread-safe handle the timer callback
`check_timeout` reads `m_last_msg_received`, restarts the timer and calls the
timeout callback without the calling thread holding `m_mtx`. -/
theorem threadsafe_check_timeout_unlocked :
    ∃ o, SubscribeHandler_threadsafe.check_timeout cfg_consistent 15 1 ts_one = some o ∧
      o.log = [TsEvent.access (check_timeout cfg_consistent 15 1 state_one).log] ∧
      guarded ts_one.m_mtx o.log = false ∧ o.state.impl.m_ok = some false :=
  ⟨_, rfl, rfl, rfl, rfl⟩

/-- C16, amended: in the thread-safe handle every overridden method (the delivery
`data_callback` and the public methods) runs the method of the base class while the
calling thread holds the recursive mutex `m_mtx`, taken on entry and released on
return; the timer callback `check_timeout` is the method of the base class itself: it
never takes `m_mtx`, so a thread that enters it without the mutex runs it
unguarded. -/
theorem threadsafe_overrides_guarded (cfg : Config) (op : Op) (ts : ThreadsafeState)
    (o : TsOut Ret) (h : SubscribeHandler_threadsafe.call cfg op ts = some o) :
    (op.overridden = true →
      guarded ts.m_mtx o.log = true ∧ o.log.head? = some TsEvent.mtx_lock ∧
      o.log.getLast? = some TsEvent.mtx_unlock ∧ o.state.m_mtx = ts.m_mtx) ∧
    (op.overridden = false →
      TsEvent.mtx_lock ∉ o.log ∧ (ts.m_mtx = 0 → guarded ts.m_mtx o.log = false)) := by
  rw [threadsafe_call_eq] at h
  cases hc : call cfg op ts.impl with
  | none => simp [hc] at h
  | some o1 =>
    simp only [hc, Option.map_some', Option.some.injEq] at h
    rw [← h]
    refine ⟨fun hov => ?_, fun hov => ?_⟩
    · simp [hov, guarded]
    · simp only [hov]
      refine ⟨by simp, fun h0 => ?_⟩
      simp [guarded, h0]

theorem threadsafe_overrides_guarded_witness :
    ∃ o, SubscribeHandler_threadsafe.call cfg_consistent (Op.data_callback msg3 20) ts_one =
        some o ∧
      guarded ts_one.m_mtx o.log = true ∧ o.log.head? = some TsEvent.mtx_lock ∧
      o.log.getLast? = some TsEvent.mtx_unlock ∧ o.state.m_mtx = ts_one.m_mtx :=
  ⟨_, rfl,
   (threadsafe_overrides_guarded cfg_consistent (Op.data_callback msg3 20) ts_one _ rfl).1 rfl⟩

/-! ## Invariants of the flags and the stored message -/

/-- C17 fails on the code: in a build that defines `NDEBUG`, `getMsg()` on a freshly
constructed handle returns the null pointer and leaves `m_used_data` set although
`m_got_data` is false; `getMsg()` sets the flag before `peekMsg()` looks for data. -/
theorem used_data_without_got_data :
    ∃ s, run cfg_release [Op.getMsg] (construct cfg_release 0).state = some s ∧
      s.m_used_data = true ∧ s.m_got_data = false ∧
      (getMsg cfg_release (construct cfg_release 0).state).map (fun o => o.ret) = some none :=
  ⟨_, rfl, rfl, rfl, rfl⟩

/-- C18: after every sequence of operations from construction (deliveries with or
without a message callback, `getMsg`, `peekMsg`, the accessors, timer expiries,
`start`, `stop`), `m_new_data` set implies `m_got_data` set. -/
theorem new_data_implies_got_data (cfg : Config) (ops : List Op) (now : Time) (s : State)
    (h : run cfg ops (construct cfg now).state = some s) (hnew : s.m_new_data = true) :
    s.m_got_data = true :=
  ((run_invariants cfg ops _ s h).1 (construct_invariants cfg now).1).2 hnew

theorem new_data_implies_got_data_witness :
    run cfg_looking [Op.start 0, Op.data_callback msg1 10, Op.check_timeout 15 1]
      (construct cfg_looking 0).state = some (check_timeout cfg_looking 15 1 state_one).state ∧
    (check_timeout cfg_looking 15 1 state_one).state.m_new_data = true ∧
    (check_timeout cfg_looking 15 1 state_one).state.m_got_data = true :=
  ⟨by decide, rfl,
   new_data_implies_got_data cfg_looking
     [Op.start 0, Op.data_callback msg1 10, Op.check_timeout 15 1] 0
     (check_timeout cfg_looking 15 1 state_one).state (by decide) rfl⟩

/-- C19: after every sequence of operations from construction, `m_latest_message` is
non-null exactly when `m_got_data` is set; so whenever data was received the
time-consistency check finds a message to compare with, no delivery ends in a null
dereference, and `peekMsg()` after `hasMsg()` returned true returns a non-null
pointer. -/
theorem latest_nonnull_iff_got_data (cfg : Config) (ops : List Op) (now : Time) (s : State)
    (h : run cfg ops (construct cfg now).state = some s) :
    (s.m_latest_message ≠ none ↔ s.m_got_data = true) ∧
    (s.m_got_data = true → ∀ msg, ∃ b, check_time_consistent msg s = some b) ∧
    (∀ msg t, ∃ o, data_callback cfg msg t s = some o) ∧
    (hasMsg s = true → ∃ o, peekMsg cfg s = some o ∧ o.ret ≠ none) := by
  obtain ⟨hiff, -⟩ := (run_invariants cfg ops _ s h).1 (construct_invariants cfg now).1
  have hne : s.m_latest_message ≠ none ↔ s.m_got_data = true := by
    rw [hiff, Option.isSome_iff_ne_none]
  refine ⟨hne, fun hgot msg => ?_, fun msg t => ?_, fun hhas => ?_⟩
  · cases hl : s.m_latest_message with
    | none => exact absurd hl (hne.mpr hgot)
    | some latest =>
      exact ⟨decide (msg.stamp ≥ latest.stamp), by simp [check_time_consistent, hl]⟩
  · exact data_callback_returns cfg msg t s hiff.mp
  · have hgot : s.m_got_data = true := hhas
    exact ⟨_, peekMsg_of_got cfg s hgot, hne.mpr hgot⟩

theorem latest_nonnull_iff_got_data_witness :
    run cfg_consistent [Op.start 0, Op.data_callback msg1 10] (construct cfg_consistent 0).state
      = some state_one ∧
    (state_one.m_latest_message ≠ none ↔ state_one.m_got_data = true) ∧
    (hasMsg state_one = true → ∃ o, peekMsg cfg_consistent state_one = some o ∧ o.ret ≠ none) :=
  ⟨by decide,
   (latest_nonnull_iff_got_data cfg_consistent [Op.start 0, Op.data_callback msg1 10] 0
      state_one (by decide)).1,
   (latest_nonnull_iff_got_data cfg_consistent [Op.start 0, Op.data_callback msg1 10] 0
      state_one (by decide)).2.2.2⟩

/-! ## The order of steps in `check_timeout` -/

/-- C20, as stated, fails: `check_timeout` starts the timer again before it calls
the timeout callback, not after, so the timer is armed while the callback runs. -/
theorem check_timeout_rearms_before_callback :
    (check_timeout cfg_consistent 15 1 state_one).log =
      [Event.timer_stop, Event.timer_start,
       Event.default_timeout_callback (resolved_topic_name cfg_consistent state_one) 10 1] ∧
    (check_timeout cfg_consistent 15 1 state_one).log ≠
      [Event.timer_stop,
       Event.default_timeout_callback (resolved_topic_name cfg_consistent state_one) 10 1,
       Event.timer_start] := by
  decide

/-- C20, amended: on every timer expiry `check_timeout` stops the timer, captures
`m_last_msg_received` (setting `m_ok = false`) and the publisher count, starts the
timer again, and only then calls the timeout callback, once, with the resolved topic
name and the captured values; on a handle with a timer, the timer is armed while the
callback runs and when `check_timeout` returns, the deadline one period after the
expiry; the flags, the stored message and `m_last_msg_received` are untouched. -/
theorem check_timeout_order (cfg : Config) (now : Time) (n_pubs : Nat) (s : State)
    (hvalid : s.m_timeout_check_timer.valid = true) :
    (check_timeout cfg now n_pubs s).log =
      [Event.timer_stop, Event.timer_start,
       if cfg.timeout_callback then
         Event.timeout_callback (resolved_topic_name cfg s) s.m_last_msg_received n_pubs
       else
         Event.default_timeout_callback (resolved_topic_name cfg s) s.m_last_msg_received
           n_pubs] ∧
    (check_timeout cfg now n_pubs s).state =
      { s with m_ok := some false
               m_timeout_check_timer := (s.m_timeout_check_timer.stop).start now } ∧
    (check_timeout cfg now n_pubs s).state.m_timeout_check_timer.started = true ∧
    (check_timeout cfg now n_pubs s).state.m_timeout_check_timer.next_expected =
      some (now + s.m_timeout_check_timer.period) := by
  obtain ⟨-, -, hst, hne⟩ := check_timeout_timer cfg now n_pubs s hvalid
  refine ⟨?_, rfl, hst, hne⟩
  simp [check_timeout, resolved_topic_name]

theorem check_timeout_order_witness :
    (check_timeout cfg_consistent 15 1 state_one).log =
      [Event.timer_stop, Event.timer_start,
       if cfg_consistent.timeout_callback then
         Event.timeout_callback (resolved_topic_name cfg_consistent state_one)
           state_one.m_last_msg_received 1
       else
         Event.default_timeout_callback (resolved_topic_name cfg_consistent state_one)
           state_one.m_last_msg_received 1] ∧
    (check_timeout cfg_consistent 15 1 state_one).state =
      { state_one with m_ok := some false
                       m_timeout_check_timer :=
                         (state_one.m_timeout_check_timer.stop).start 15 } ∧
    (check_timeout cfg_consistent 15 1 state_one).state.m_timeout_check_timer.started = true ∧
    (check_timeout cfg_consistent 15 1 state_one).state.m_timeout_check_timer.next_expected =
      some (15 + state_one.m_timeout_check_timer.period) :=
  check_timeout_order cfg_consistent 15 1 state_one rfl

/-! ## The timer-activity invariant -/

theorem Timer.start_active (t : Timer) (now : Time) (live : Bool)
    (h1 : t.started = (t.valid && live)) (h2 : t.next_expected.isSome = t.started) :
    (t.start now).started = ((t.start now).valid && true) ∧
    (t.start now).next_expected.isSome = (t.start now).started := by
  cases hv : t.valid <;> cases hs : t.started <;> cases live <;>
    simp_all [Timer.start]

theorem Timer.stop_active (t : Timer) (live : Bool)
    (h1 : t.started = (t.valid && live)) (h2 : t.next_expected.isSome = t.started) :
    t.stop.started = (t.stop.valid && false) ∧
    t.stop.next_expected.isSome = t.stop.started := by
  cases hv : t.valid <;> cases hs : t.started <;> cases live <;>
    simp_all [Timer.stop]

theorem Timer.restart_active (t : Timer) (now : Time)
    (h1 : t.started = (t.valid && true)) (h2 : t.next_expected.isSome = t.started) :
    ((t.stop).start now).started = (((t.stop).start now).valid && true) ∧
    ((t.stop).start now).next_expected.isSome = ((t.stop).start now).started := by
  cases hv : t.valid <;> cases hs : t.started <;>
    simp_all [Timer.stop, Timer.start]

/-- Every operation the environment can issue keeps the timer in step with the
subscription; only `start()` and `stop()` change whether `m_sub` is live. -/
theorem step_timerActive (cfg : Config) (op : Op) (s s1 : State) (log : List Event)
    (hact : TimerActive s) (hen : op.enabled s = true) (h : step cfg op s = some (s1, log)) :
    TimerActive s1 ∧ s1.m_sub.active = live_after s.m_sub.active [op] := by
  obtain ⟨h1, h2⟩ := hact
  unfold TimerActive
  cases op with
  | getMsg =>
    simp only [step, Option.map_eq_some', Prod.mk.injEq] at h
    obtain ⟨o, ho, hs, -⟩ := h
    obtain ⟨hst, -⟩ := peekMsg_state cfg _ o ho
    rw [← hs, hst]
    exact ⟨⟨h1, h2⟩, rfl⟩
  | peekMsg =>
    simp only [step, Option.map_eq_some', Prod.mk.injEq] at h
    obtain ⟨o, ho, hs, -⟩ := h
    obtain ⟨hst, -⟩ := peekMsg_state cfg _ o ho
    rw [← hs, hst]
    exact ⟨⟨h1, h2⟩, rfl⟩
  | data_callback msg now =>
    have hlive : s.m_sub.active = true := by simpa [Op.enabled] using hen
    simp only [step, Option.map_eq_some', Prod.mk.injEq] at h
    obtain ⟨o, ho, hs, -⟩ := h
    rcases data_callback_accepts_or_rejects cfg msg now s o ho with hacc | hrej
    · rw [data_callback_of_accepts cfg msg now s hacc] at ho
      simp only [Option.some.injEq] at ho
      rw [← hs, ← ho]
      rw [hlive] at h1
      have hr := Timer.restart_active s.m_timeout_check_timer now h1 h2
      refine ⟨?_, ?_⟩
      · simpa [data_callback_unchecked_state, process_new_message, hlive] using hr
      · simp [data_callback_unchecked_state, process_new_message, live_after]
    · rw [data_callback_of_rejects cfg msg now s hrej] at ho
      simp only [Option.some.injEq] at ho
      rw [← hs, ← ho]
      exact ⟨⟨h1, h2⟩, rfl⟩
  | hasMsg =>
    simp only [step, Option.some.injEq, Prod.mk.injEq] at h
    rw [← h.1]; exact ⟨⟨h1, h2⟩, rfl⟩
  | newMsg =>
    simp only [step, Option.some.injEq, Prod.mk.injEq] at h
    rw [← h.1]; exact ⟨⟨h1, h2⟩, rfl⟩
  | usedMsg =>
    simp only [step, Option.some.injEq, Prod.mk.injEq] at h
    rw [← h.1]; exact ⟨⟨h1, h2⟩, rfl⟩
  | lastMsgTime =>
    simp only [step, Option.some.injEq, Prod.mk.injEq] at h
    rw [← h.1]; exact ⟨⟨h1, h2⟩, rfl⟩
  | topicName =>
    simp only [step, Option.some.injEq, Prod.mk.injEq] at h
    rw [← h.1]; exact ⟨⟨h1, h2⟩, rfl⟩
  | start now =>
    simp only [step, Option.some.injEq, Prod.mk.injEq] at h
    rw [← h.1]
    have hr := Timer.start_active s.m_timeout_check_timer now s.m_sub.active h1 h2
    exact ⟨by simpa [start] using hr, by simp [start, live_after]⟩
  | stop =>
    simp only [step, Option.some.injEq, Prod.mk.injEq] at h
    rw [← h.1]
    have hr := Timer.stop_active s.m_timeout_check_timer s.m_sub.active h1 h2
    exact ⟨by simpa [stop, Subscriber.shutdown] using hr,
      by simp [stop, Subscriber.shutdown, live_after]⟩
  | check_timeout now n_pubs =>
    have hdue : s.m_timeout_check_timer.next_expected.isSome = true := by
      simp only [Op.enabled] at hen
      cases hn : s.m_timeout_check_timer.next_expected with
      | none => simp [hn] at hen
      | some deadline => rfl
    have hlive : s.m_sub.active = true := by
      rw [h2, h1] at hdue
      exact (Bool.and_eq_true _ _ ▸ hdue).2
    simp only [step, Option.some.injEq, Prod.mk.injEq] at h
    rw [← h.1]
    rw [hlive] at h1
    have hr := Timer.restart_active s.m_timeout_check_timer now h1 h2
    exact ⟨by simpa [check_timeout, hlive] using hr, by simp [check_timeout, live_after]⟩

theorem live_after_cons (live : Bool) (op : Op) (ops : List Op) :
    live_after live (op :: ops) = live_after (live_after live [op]) ops := by
  cases op <;> simp [live_after]

/-- Along every sequence the environment can issue, the timer stays in step with the
subscription, and `m_sub` is live exactly when the last of the `start()` and
`stop()` calls was a `start()`. -/
theorem exec_timerActive (cfg : Config) (ops : List Op) (s s1 : State) (log : List Event)
    (hact : TimerActive s) (h : exec cfg ops s = some (s1, log)) :
    TimerActive s1 ∧ s1.m_sub.active = live_after s.m_sub.active ops := by
  induction ops generalizing s log with
  | nil =>
    simp only [exec, Option.some.injEq, Prod.mk.injEq] at h
    rw [← h.1]
    exact ⟨hact, rfl⟩
  | cons op ops ih =>
    simp only [exec] at h
    split at h
    · rename_i hen
      cases hstep : step cfg op s with
      | none => simp [hstep] at h
      | some p =>
        obtain ⟨s2, log1⟩ := p
        simp only [hstep] at h
        cases hrest : exec cfg ops s2 with
        | none => simp [hrest] at h
        | some q =>
          obtain ⟨s3, log2⟩ := q
          simp only [hrest, Option.some.injEq, Prod.mk.injEq] at h
          obtain ⟨hact2, hlive2⟩ := step_timerActive cfg op s s2 log1 hact hen hstep
          obtain ⟨hact3, hlive3⟩ := ih s2 log2 hact2 (by rw [hrest, h.1])
          exact ⟨hact3, by rw [hlive3, hlive2, ← live_after_cons]⟩
    · simp at h

/-- One delivery without clock jump under the time-consistent policy: it returns,
and the stored message afterwards is the old one or the delivered one, whichever
has the later `header.stamp` (the delivered one on a tie). -/
theorem delivery_keeps_newest (cfg : Config) (msg : Msg) (t : Time) (s : State)
    (hpol : cfg.time_consistent = true) (hwf : WellFormed s)
    (hnow : s.m_last_msg_received ≤ t) :
    ∃ o, data_callback cfg msg t s = some o ∧ WellFormed o.state ∧
      o.state.m_last_msg_received ≤ t ∧ o.state.m_latest_message ≠ none ∧
      latest_stamp s ≤ latest_stamp o.state ∧ msg.stamp ≤ latest_stamp o.state ∧
      (o.state.m_latest_message = s.m_latest_message ∨
        o.state.m_latest_message = some msg) := by
  have hreset : check_time_reset t s = false := by
    simp [check_time_reset, hnow]
  have hwf_step : ∀ o, data_callback cfg msg t s = some o → WellFormed o.state := by
    intro o ho
    exact step_wellFormed cfg (Op.data_callback msg t) s o.state o.log hwf
      (by simp [step, ho])
  have haccept : accepts cfg msg t s = true →
      ∃ o, data_callback cfg msg t s = some o ∧ o.state.m_latest_message = some msg ∧
        o.state.m_last_msg_received = t := by
    intro hacc
    exact ⟨_, data_callback_of_accepts cfg msg t s hacc,
      by simp [data_callback_unchecked_state, process_new_message],
      by simp [data_callback_unchecked_state, process_new_message]⟩
  cases hg : s.m_got_data with
  | false =>
    have hnone : s.m_latest_message = none := by
      cases hl : s.m_latest_message with
      | none => rfl
      | some l =>
        have := hwf.1.mpr (by simp [hl])
        rw [hg] at this
        cases this
    obtain ⟨o, ho, hlat, hlast⟩ := haccept (accepts_of_no_data cfg msg t s hg)
    refine ⟨o, ho, hwf_step o ho, by rw [hlast], by simp [hlat], ?_, ?_, Or.inr hlat⟩
    · simp [latest_stamp, hnone]
    · simp [latest_stamp, hlat]
  | true =>
    have hsome := hwf.1.mp hg
    cases hl : s.m_latest_message with
    | none => simp [hl] at hsome
    | some l =>
      by_cases hcmp : l.stamp ≤ msg.stamp
      · have hacc : accepts cfg msg t s = true := by
          simp [accepts, hpol, message_valid, hg, check_time_consistent, hl, hcmp]
        obtain ⟨o, ho, hlat, hlast⟩ := haccept hacc
        refine ⟨o, ho, hwf_step o ho, by rw [hlast], by simp [hlat], ?_, ?_, Or.inr hlat⟩
        · simpa [latest_stamp, hl, hlat] using hcmp
        · simp [latest_stamp, hlat]
      · have hrej : rejects cfg msg t s = true := by
          simp [rejects, hpol, message_valid, hg, check_time_consistent, hl, hcmp, hreset]
        refine ⟨_, data_callback_of_rejects cfg msg t s hrej, hwf, hnow, ?_, le_refl _, ?_,
          Or.inl ?_⟩
        · show s.m_latest_message ≠ none
          simp [hl]
        · show msg.stamp ≤ latest_stamp s
          simp only [latest_stamp, hl]
          exact Nat.le_of_lt (Nat.lt_of_not_le hcmp)
        · show s.m_latest_message = some l
          exact hl

/-- A run of deliveries without clock jump under the time-consistent policy, from
any state that satisfies the invariants of the data model. -/
theorem deliveries_keep_newest (cfg : Config) (hpol : cfg.time_consistent = true)
    (ds : List (Msg × Time)) (s : State) (t0 : Time) (hwf : WellFormed s)
    (hnow : s.m_last_msg_received ≤ t0) (hord : arrivals_ordered t0 ds = true) :
    ∃ states, deliveries cfg ds s = some states ∧ states.length = ds.length ∧
      (∀ s1 ∈ states, s1.m_latest_message ≠ none) ∧
      List.Chain (· ≤ ·) (latest_stamp s) (states.map latest_stamp) ∧
      latest_stamp s ≤ latest_stamp (last_state s states) ∧
      (∀ d ∈ ds, d.1.stamp ≤ latest_stamp (last_state s states)) ∧
      ((last_state s states).m_latest_message = s.m_latest_message ∨
        ∃ d ∈ ds, (last_state s states).m_latest_message = some d.1) := by
  induction ds generalizing s t0 with
  | nil =>
    exact ⟨[], rfl, rfl, by simp, List.Chain.nil, le_refl _, by simp, Or.inl rfl⟩
  | cons d ds ih =>
    simp only [arrivals_ordered, Bool.and_eq_true, decide_eq_true_eq] at hord
    obtain ⟨o, ho, hwf1, hlast1, hne1, hmono1, hmsg1, hsrc1⟩ :=
      delivery_keeps_newest cfg d.1 d.2 s hpol hwf (le_trans hnow hord.1)
    obtain ⟨states, hrun, hlen, hall, hchain, hmono, hmax, hsrc⟩ :=
      ih o.state d.2 hwf1 hlast1 hord.2
    refine ⟨o.state :: states, by simp [deliveries, ho, hrun], by simp [hlen], ?_, ?_, ?_, ?_, ?_⟩
    · intro s1 hs1
      rcases List.mem_cons.mp hs1 with h1 | h1
      · rw [h1]; exact hne1
      · exact hall s1 h1
    · simpa using List.Chain.cons hmono1 hchain
    · exact le_trans hmono1 hmono
    · intro d1 hd1
      rcases List.mem_cons.mp hd1 with h1 | h1
      · rw [h1]; exact le_trans hmsg1 hmono
      · exact hmax d1 h1
    · simp only [last_state]
      rcases hsrc with h1 | ⟨d1, hd1, h1⟩
      · rcases hsrc1 with h2 | h2
        · exact Or.inl (by rw [h1, h2])
        · exact Or.inr ⟨d, List.mem_cons_self _ _, by rw [h1, h2]⟩
      · exact Or.inr ⟨d1, List.mem_cons_of_mem _ hd1, h1⟩

/-- C22: under the time-consistent policy, on a handle that has not yet accepted a
message (and satisfies the invariants of the data model, as every handle does, see
`run_invariants`), for every sequence of deliveries whose arrival times never decrease and are
not before `m_last_msg_received` (the time of construction), every delivery returns
and leaves a message stored, the `header.stamp`s of the successively stored messages
never decrease, and the message stored at the end is one of the delivered ones and
has the greatest `header.stamp` of them all. -/
theorem latest_stamps_nondecreasing (cfg : Config) (ds : List (Msg × Time)) (s : State)
    (hpol : cfg.time_consistent = true) (hwf : WellFormed s) (hfresh : s.m_got_data = false)
    (hord : arrivals_ordered s.m_last_msg_received ds = true) :
    ∃ states, deliveries cfg ds s = some states ∧ states.length = ds.length ∧
      (∀ s1 ∈ states, s1.m_latest_message ≠ none) ∧
      (states.map latest_stamp).Pairwise (· ≤ ·) ∧
      (∀ d ∈ ds, d.1.stamp ≤ latest_stamp (last_state s states)) ∧
      (ds ≠ [] → ∃ d ∈ ds, (last_state s states).m_latest_message = some d.1) := by
  have hnull : s.m_latest_message = none := by
    cases hl : s.m_latest_message with
    | none => rfl
    | some l =>
      have := hwf.1.mpr (by simp [hl])
      rw [hfresh] at this
      cases this
  obtain ⟨states, hrun, hlen, hall, hchain, -, hmax, hsrc⟩ :=
    deliveries_keep_newest cfg hpol ds s s.m_last_msg_received hwf (le_refl _) hord
  refine ⟨states, hrun, hlen, hall, (List.Chain.pairwise hchain).tail, hmax, fun hne => ?_⟩
  rcases hsrc with h1 | h1
  · exfalso
    cases ds with
    | nil => exact hne rfl
    | cons d ds =>
      cases states with
      | nil => simp at hlen
      | cons s1 states =>
        have hlast : (last_state s (s1 :: states)).m_latest_message ≠ none := by
          have hmem : ∀ (a : State) (l : List State),
              (∀ x ∈ a :: l, x.m_latest_message ≠ none) →
              (last_state a l).m_latest_message ≠ none := by
            intro a l
            induction l generalizing a with
            | nil => intro hx; exact hx a (List.mem_cons_self _ _)
            | cons b l ih =>
              intro hx
              exact ih b (fun x hxb => hx x (List.mem_cons_of_mem _ hxb))
          exact hmem s1 states hall
        rw [h1, hnull] at hlast
        exact hlast rfl
  · exact h1

theorem latest_stamps_nondecreasing_witness :
    ∃ states, deliveries cfg_consistent three_deliveries state_started = some states ∧
      states.length = three_deliveries.length ∧
      (∀ s1 ∈ states, s1.m_latest_message ≠ none) ∧
      (states.map latest_stamp).Pairwise (· ≤ ·) ∧
      (∀ d ∈ three_deliveries, d.1.stamp ≤ latest_stamp (last_state state_started states)) ∧
      (three_deliveries ≠ [] →
        ∃ d ∈ three_deliveries, (last_state state_started states).m_latest_message = some d.1) :=
  latest_stamps_nondecreasing cfg_consistent three_deliveries state_started rfl (by decide) rfl
    (by decide)

/-! ## The two constructors of `NotchFilter` -/

/-- C23 fails on the code: whatever the IIR class, the arguments and the sample,
the single-frequency constructor leaves `filter` null, so `iterate` on the object
ends the process in a null dereference, while the vector constructor on the
one-element vectors makes `filter` from `a_std` and `b_std` and `iterate` on that
object returns. -/
theorem construct_single_leaves_filter_null (iir : IirClass)
    (sample_rate frequency_in bandwidth_in sample_in : Double) :
    (NotchFilter.construct_single iir sample_rate frequency_in bandwidth_in).1.filter = none ∧
    NotchFilter.iterate iir
      (NotchFilter.construct_single iir sample_rate frequency_in bandwidth_in).1 sample_in
      = none ∧
    (NotchFilter.construct_vector iir sample_rate [frequency_in] [bandwidth_in]).1.filter =
      some (iir.construct NotchFilter.a_std NotchFilter.b_std) ∧
    (NotchFilter.iterate iir
      (NotchFilter.construct_vector iir sample_rate [frequency_in] [bandwidth_in]).1
      sample_in).isSome = true :=
  ⟨rfl, rfl, rfl, rfl⟩

end mrs_lib
